import Mathlib

/-!
Verification of the single-active-session core of `server.js`.

The embedding models the two durable stores of the program:
the `users` table of `usuarios.db` (username, password, nullable
session_id) and the express-session store `sessions.sqlite`
(session id to session record).  The three operations of the
session-claim core — the `/login` handler, the `requiereSesionUnica`
guard middleware and the `/logout` handler — are translated
statement by statement from the source, including JavaScript
truthiness of the involved checks and the SQL semantics of the
conditional claim update.
-/

set_option maxHeartbeats 1000000

namespace Porfin

/-- JavaScript truthiness of a nullable string: null/undefined and the empty string are falsy. -/
def truthyStr : Option String → Bool
  | none => false
  | some s => s != ""

/-- JavaScript `a || b` on nullable strings, as used for `usuario || username`. -/
def jsOrStr (a b : Option String) : Option String :=
  if truthyStr a then a else b

/-- Session record held by the session store; only the `usuario` field written by the core matters. -/
structure SessRec where
  usuario : Option String
deriving Repr, DecidableEq

/-- Row of the `users` table created in `usuarios.db`. -/
structure UserRow where
  username : String
  password : Option String
  session_id : Option String
deriving Repr, DecidableEq

/-- Incoming request as the core sees it: the cookie session id and the
loaded session blob's `usuario` field (`req.sessionID` and `req.session.usuario`). -/
structure Request where
  sessionID : String
  usuario : Option String
deriving Repr, DecidableEq

/-- Combined durable state: the users table and the session store. -/
structure ServerState where
  users : List UserRow
  store : List (String × SessRec)
deriving Repr, DecidableEq

/-- store.get(sid): first record stored under the identifier. -/
def storeGet (st : List (String × SessRec)) (sid : String) : Option SessRec :=
  (st.find? (fun p => p.1 == sid)).map (fun p => p.2)

/-- store.destroy(sid): remove the record stored under the identifier. -/
def storeErase (st : List (String × SessRec)) (sid : String) : List (String × SessRec) :=
  st.filter (fun p => p.1 != sid)

/-- Saving a session: upsert the record under the identifier. -/
def storeSet (st : List (String × SessRec)) (sid : String) (rec : SessRec) : List (String × SessRec) :=
  (sid, rec) :: storeErase st sid

/-- SELECT username, password, session_id FROM users WHERE username = ? (first row, as `.get()`). -/
def getUser (s : ServerState) (name : String) : Option UserRow :=
  s.users.find? (fun r => r.username == name)

/-- UPDATE users SET session_id = NULL WHERE username = ?. -/
def clearClaim (s : ServerState) (name : String) : ServerState :=
  { s with users := s.users.map (fun r =>
      if r.username == name then { r with session_id := none } else r) }

/-- UPDATE users SET session_id = ? WHERE username = ? AND session_id IS NULL,
together with the number of affected rows (`claim.changes`). -/
def conditionalClaim (s : ServerState) (name sid : String) : ServerState × Nat :=
  ({ s with users := s.users.map (fun r =>
      if r.username == name && r.session_id == none then { r with session_id := some sid } else r) },
   (s.users.filter (fun r => r.username == name && r.session_id == none)).length)

/-- The `autenticar` helper: fetch the row; mismatch only rejected when both the
stored and the submitted password are truthy. -/
def autenticar (s : ServerState) (username : String) (password : Option String) : Option UserRow :=
  match getUser s username with
  | none => none
  | some row =>
    if truthyStr row.password && truthyStr password && row.password != password then none
    else some row

/-- Outcomes of the `/login` handler, tagged by the redirect issued. -/
inductive LoginResult
  | credenciales
  | sesionActiva
  | inicio
deriving Repr, DecidableEq

/-- Step 1 of `/login`: if the authenticated row carried a truthy session_id,
destroy that session in the store and null the claim; otherwise do nothing. -/
def loginEvict (s : ServerState) (user : UserRow) : ServerState :=
  if truthyStr user.session_id then
    clearClaim { s with store := storeErase s.store (user.session_id.getD "") } user.username
  else s

/-- Step 2 of `/login`: `req.session.regenerate` destroys the request's current
store entry before issuing the fresh identifier. -/
def loginRegen (s : ServerState) (req : Request) : ServerState :=
  { s with store := storeErase s.store req.sessionID }

/-- The `/login` handler.  `usuarioF`, `usernameF`, `passwordF` are the request
body fields; `freshSid` is the identifier issued by `regenerate`.  Returns the
redirect result, the new durable state, and the request's session after the
handler (on success the saved blob carries `usuario`; a lost claim leaves the
regenerated session uninitialised). -/
def login (s : ServerState) (req : Request) (usuarioF usernameF passwordF : Option String)
    (freshSid : String) : LoginResult × ServerState × Request :=
  match jsOrStr usuarioF usernameF with
  | none => (.credenciales, s, req)
  | some uf =>
    if uf = "" then (.credenciales, s, req)
    else
      match autenticar s uf passwordF with
      | none => (.credenciales, s, req)
      | some user =>
        let s2 := loginRegen (loginEvict s user) req
        let cc := conditionalClaim s2 user.username freshSid
        if cc.2 = 0 then (.sesionActiva, cc.1, ⟨freshSid, none⟩)
        else (.inicio, { cc.1 with store := storeSet cc.1.store freshSid ⟨some user.username⟩ },
              ⟨freshSid, some user.username⟩)

/-- Outcomes of the `requiereSesionUnica` middleware, tagged by the redirect issued. -/
inductive GuardResult
  | redirectLogin
  | sesionInvalida
  | otraMaquina
  | sesionExpirada
  | allowed
deriving Repr, DecidableEq

/-- The `requiereSesionUnica` middleware.  `req.session.destroy` removes the
request's store entry; the expired branch first nulls the claim and then
destroys the local session, exactly as in the source. -/
def requiereSesionUnica (s : ServerState) (req : Request) : GuardResult × ServerState :=
  match req.usuario with
  | none => (.redirectLogin, s)
  | some uname =>
    if uname = "" then (.redirectLogin, s)
    else
      match getUser s uname with
      | none => (.redirectLogin, s)
      | some row =>
        match row.session_id with
        | none => (.sesionInvalida, { s with store := storeErase s.store req.sessionID })
        | some rsid =>
          if rsid = "" then (.sesionInvalida, { s with store := storeErase s.store req.sessionID })
          else if rsid ≠ req.sessionID then
            (.otraMaquina, { s with store := storeErase s.store req.sessionID })
          else
            match storeGet s.store rsid with
            | none =>
              let sc := clearClaim s uname
              (.sesionExpirada, { sc with store := storeErase sc.store req.sessionID })
            | some _ => (.allowed, s)

/-- The `/logout` handler: destroy the request's session, then null the claim
only when it still equals the session just terminated. -/
def logout (s : ServerState) (req : Request) : ServerState × Request :=
  let s1 : ServerState := { s with store := storeErase s.store req.sessionID }
  let s2 :=
    match req.usuario with
    | none => s1
    | some uname =>
      if uname = "" then s1
      else
        match getUser s1 uname with
        | none => s1
        | some row => if row.session_id == some req.sessionID then clearClaim s1 uname else s1
  (s2, ⟨req.sessionID, none⟩)

/-- A fresh request from the client holding session id `sid`: the middleware
loads the blob from the store (an absent entry yields an empty blob). -/
def freshRequest (s : ServerState) (sid : String) : Request :=
  ⟨sid, (storeGet s.store sid).bind (fun rec => rec.usuario)⟩

/-- A session identifier passes guard-check in state `s` when a request carrying
it, with its blob loaded from the store, is allowed through. -/
def guardOK (s : ServerState) (sid : String) : Prop :=
  (requiereSesionUnica s (freshRequest s sid)).1 = .allowed

instance (s : ServerState) (sid : String) : Decidable (guardOK s sid) := by
  unfold guardOK; infer_instance

/-! ### Basic lemmas about the storage operations -/

theorem find?_map_comm {α : Type} (f : α → α) (p : α → Bool) (l : List α)
    (h : ∀ a, p (f a) = p a) :
    (l.map f).find? p = (l.find? p).map f := by
  induction l with
  | nil => rfl
  | cons a t ih =>
    by_cases hpa : p a = true
    · simp [List.find?_cons_of_pos, hpa, h a]
    · have hpa' : p a = false := by simpa using hpa
      simp only [List.map_cons]
      rw [List.find?_cons_of_neg _ (by simp [h a, hpa']),
          List.find?_cons_of_neg _ (by simp [hpa'])]
      exact ih

theorem storeGet_erase_self (st : List (String × SessRec)) (x : String) :
    storeGet (storeErase st x) x = none := by
  induction st with
  | nil => rfl
  | cons a t ih =>
    rw [storeErase, List.filter_cons]
    by_cases hax : a.1 = x
    · rw [if_neg (by simp [hax])]
      exact ih
    · rw [if_pos (by simpa using hax)]
      rw [storeGet, List.find?_cons_of_neg _ (by simpa using hax)]
      exact ih

theorem storeGet_erase_other (st : List (String × SessRec)) (x y : String) (hyx : y ≠ x) :
    storeGet (storeErase st x) y = storeGet st y := by
  induction st with
  | nil => rfl
  | cons a t ih =>
    rw [storeErase, List.filter_cons]
    by_cases hax : a.1 = x
    · rw [if_neg (by simp [hax])]
      rw [show storeGet (a :: t) y = storeGet t y from ?keep]
      · exact ih
      case keep =>
        rw [storeGet, storeGet,
            List.find?_cons_of_neg _ (by simp only [beq_iff_eq, hax]; exact fun h => hyx h.symm)]
    · rw [if_pos (by simpa using hax)]
      by_cases hay : a.1 = y
      · rw [storeGet, storeGet, List.find?_cons_of_pos _ (by simpa using hay),
            List.find?_cons_of_pos _ (by simpa using hay)]
      · rw [storeGet, storeGet, List.find?_cons_of_neg _ (by simpa using hay),
            List.find?_cons_of_neg _ (by simpa using hay)]
        exact ih

theorem storeGet_erase (st : List (String × SessRec)) (x y : String) :
    storeGet (storeErase st x) y = if y = x then none else storeGet st y := by
  by_cases hyx : y = x
  · subst hyx; simp [storeGet_erase_self]
  · simp [hyx, storeGet_erase_other st x y hyx]

theorem storeGet_set (st : List (String × SessRec)) (x y : String) (rec : SessRec) :
    storeGet (storeSet st x rec) y = if y = x then some rec else storeGet st y := by
  by_cases hyx : y = x
  · subst hyx
    rw [storeSet, storeGet, List.find?_cons_of_pos _ (by simp)]
    simp
  · rw [storeSet, storeGet, List.find?_cons_of_neg _ (by simp; exact fun h => hyx h.symm)]
    rw [if_neg hyx, ← storeGet, storeGet_erase_other st x y hyx]

theorem getUser_username {s : ServerState} {name : String} {row : UserRow}
    (h : getUser s name = some row) : row.username = name := by
  have := List.find?_some h
  simpa using this

theorem getUser_mem {s : ServerState} {name : String} {row : UserRow}
    (h : getUser s name = some row) : row ∈ s.users :=
  List.mem_of_find?_eq_some h

theorem getUser_clearClaim (s : ServerState) (name n : String) :
    getUser (clearClaim s name) n =
      (getUser s n).map (fun r => if r.username == name then { r with session_id := none } else r) := by
  unfold getUser clearClaim
  exact find?_map_comm _ _ _ (by intro r; by_cases h : r.username == name <;> simp [h])

theorem getUser_conditionalClaim (s : ServerState) (name sid n : String) :
    getUser ((conditionalClaim s name sid).1) n =
      (getUser s n).map (fun r =>
        if r.username == name && r.session_id == none then { r with session_id := some sid } else r) := by
  unfold getUser conditionalClaim
  exact find?_map_comm _ _ _
    (by intro r; by_cases h : r.username == name && r.session_id == none <;> simp [h])

theorem conditionalClaim_changes_ne_zero (s : ServerState) (name sid : String) :
    (conditionalClaim s name sid).2 ≠ 0 ↔
      ∃ r ∈ s.users, r.username = name ∧ r.session_id = none := by
  unfold conditionalClaim
  constructor
  · intro h
    rcases List.exists_mem_of_length_pos (Nat.pos_of_ne_zero h) with ⟨r, hr⟩
    rw [List.mem_filter] at hr
    exact ⟨r, hr.1, by simpa using hr.2⟩
  · rintro ⟨r, hr, h1, h2⟩ h0
    have hnil := List.length_eq_zero.mp h0
    have := List.filter_eq_nil_iff.mp hnil r hr
    simp [h1, h2] at this

theorem autenticar_getUser {s : ServerState} {u : String} {pw : Option String} {user : UserRow}
    (h : autenticar s u pw = some user) : getUser s u = some user := by
  cases hg : getUser s u with
  | none => unfold autenticar at h; rw [hg] at h; cases h
  | some row =>
    unfold autenticar at h
    rw [hg] at h
    by_cases hc : (truthyStr row.password && truthyStr pw && row.password != pw) = true
    · simp [hc] at h
    · simp [hc] at h
      rw [h]

theorem autenticar_eq_none (s : ServerState) (u : String) (pw : Option String) :
    autenticar s u pw = none ↔
      getUser s u = none ∨
      ∃ row, getUser s u = some row ∧ truthyStr row.password ∧ truthyStr pw ∧ row.password ≠ pw := by
  unfold autenticar
  cases hg : getUser s u with
  | none => simp
  | some row =>
    by_cases hc : (truthyStr row.password && truthyStr pw && row.password != pw) = true
    · simp only [Bool.and_eq_true, bne_iff_ne, ne_eq] at hc
      simp [hc.1.1, hc.1.2, hc.2]
    · dsimp only
      rw [if_neg hc]
      simp only [Bool.and_eq_true, bne_iff_ne, ne_eq, not_and, not_not] at hc
      constructor
      · intro h; cases h
      · rintro (h | ⟨row', hrow', h1, h2, h3⟩)
        · cases h
        · injection hrow' with hrr
          subst hrr
          exact absurd (hc ⟨h1, h2⟩) h3

/-! ### Unfolding lemmas for the login handler -/

theorem login_eq_claim_step (s : ServerState) (req : Request) (uA uB pw : Option String)
    (freshSid uf : String) (user : UserRow)
    (huf : jsOrStr uA uB = some uf) (hne : uf ≠ "")
    (hauth : autenticar s uf pw = some user) :
    login s req uA uB pw freshSid =
      (if (conditionalClaim (loginRegen (loginEvict s user) req) user.username freshSid).2 = 0 then
        (.sesionActiva, (conditionalClaim (loginRegen (loginEvict s user) req) user.username freshSid).1,
          ⟨freshSid, none⟩)
       else
        (.inicio,
         { (conditionalClaim (loginRegen (loginEvict s user) req) user.username freshSid).1 with
            store := storeSet
              (conditionalClaim (loginRegen (loginEvict s user) req) user.username freshSid).1.store
              freshSid ⟨some user.username⟩ },
         ⟨freshSid, some user.username⟩)) := by
  unfold login
  rw [huf]
  dsimp only
  rw [if_neg hne, hauth]

theorem getUser_state_users (s : ServerState) (st : List (String × SessRec)) (name : String) :
    getUser { s with store := st } name = getUser s name := rfl

theorem getUser_loginEvict (s : ServerState) (user : UserRow)
    (hg : getUser s user.username = some user)
    (hwf : user.session_id = none ∨ truthyStr user.session_id = true) :
    getUser (loginEvict s user) user.username = some { user with session_id := none } := by
  unfold loginEvict
  rcases hwf with h | h
  · rw [if_neg (by simp [h, truthyStr]), hg]
    cases user
    simp_all
  · rw [if_pos h, getUser_clearClaim]
    rw [show getUser { s with store := storeErase s.store (user.session_id.getD "") } user.username
          = some user from hg]
    simp

theorem loginEvict_store (s : ServerState) (user : UserRow) (old : String)
    (hold : user.session_id = some old) (hne : old ≠ "") :
    (loginEvict s user).store = storeErase s.store old := by
  unfold loginEvict
  rw [if_pos (by simp [hold, truthyStr, hne])]
  simp [clearClaim, hold]

theorem loginEvict_users_of_falsy (s : ServerState) (user : UserRow)
    (h : truthyStr user.session_id = false) :
    (loginEvict s user) = s := by
  unfold loginEvict
  rw [if_neg (by simp [h])]

/-- Master lemma: a login whose credentials pass `autenticar`, on a row whose
session_id column is well formed (null or non-empty), always wins the claim and
produces the fully described success state. -/
theorem login_success (s : ServerState) (req : Request) (uA uB pw : Option String)
    (freshSid uf : String) (user : UserRow)
    (huf : jsOrStr uA uB = some uf) (hne : uf ≠ "")
    (hauth : autenticar s uf pw = some user)
    (hwf : user.session_id = none ∨ truthyStr user.session_id = true) :
    (login s req uA uB pw freshSid).1 = .inicio ∧
    getUser (login s req uA uB pw freshSid).2.1 uf = some ⟨uf, user.password, some freshSid⟩ ∧
    storeGet (login s req uA uB pw freshSid).2.1.store freshSid = some ⟨some uf⟩ ∧
    (login s req uA uB pw freshSid).2.2 = ⟨freshSid, some uf⟩ ∧
    (∀ y, y ≠ freshSid →
      storeGet (login s req uA uB pw freshSid).2.1.store y =
        if y = req.sessionID then none else storeGet (loginEvict s user).store y) := by
  have hg : getUser s uf = some user := autenticar_getUser hauth
  have huname : user.username = uf := getUser_username hg
  have hEv : getUser (loginEvict s user) user.username = some { user with session_id := none } :=
    getUser_loginEvict s user (by rw [huname]; exact hg) hwf
  have hEv2 : getUser (loginRegen (loginEvict s user) req) user.username
      = some { user with session_id := none } := hEv
  have hchanges : (conditionalClaim (loginRegen (loginEvict s user) req) user.username freshSid).2 ≠ 0 := by
    rw [conditionalClaim_changes_ne_zero]
    exact ⟨{ user with session_id := none }, getUser_mem hEv2, by simp, rfl⟩
  rw [login_eq_claim_step s req uA uB pw freshSid uf user huf hne hauth, if_neg hchanges]
  refine ⟨rfl, ?_, ?_, by rw [huname], ?_⟩
  · rw [getUser_state_users, getUser_conditionalClaim]
    rw [show getUser (loginRegen (loginEvict s user) req) uf
          = some { user with session_id := none } from huname ▸ hEv2]
    simp [huname]
  · rw [storeGet_set]
    simp [huname]
  · intro y hy
    rw [storeGet_set, if_neg hy]
    rw [show (conditionalClaim (loginRegen (loginEvict s user) req) user.username freshSid).1.store
          = storeErase (loginEvict s user).store req.sessionID from rfl]
    exact storeGet_erase _ _ _

/-! ### Branch lemmas for the guard middleware -/

theorem guard_unauth_none (s : ServerState) (req : Request) (h : req.usuario = none) :
    requiereSesionUnica s req = (.redirectLogin, s) := by
  unfold requiereSesionUnica
  rw [h]

theorem guard_unauth_empty (s : ServerState) (req : Request) (h : req.usuario = some "") :
    requiereSesionUnica s req = (.redirectLogin, s) := by
  unfold requiereSesionUnica
  rw [h]
  simp

theorem guard_unauth_nouser (s : ServerState) (req : Request) (uname : String)
    (h : req.usuario = some uname) (hne : uname ≠ "") (hg : getUser s uname = none) :
    requiereSesionUnica s req = (.redirectLogin, s) := by
  unfold requiereSesionUnica
  rw [h]
  dsimp only
  rw [if_neg hne, hg]

theorem guard_invalida (s : ServerState) (req : Request) (uname : String) (row : UserRow)
    (h : req.usuario = some uname) (hne : uname ≠ "") (hg : getUser s uname = some row)
    (hsid : row.session_id = none) :
    requiereSesionUnica s req = (.sesionInvalida, { s with store := storeErase s.store req.sessionID }) := by
  unfold requiereSesionUnica
  rw [h]
  dsimp only
  rw [if_neg hne, hg]
  dsimp only
  rw [hsid]

theorem guard_otra (s : ServerState) (req : Request) (uname : String) (row : UserRow) (rsid : String)
    (h : req.usuario = some uname) (hne : uname ≠ "") (hg : getUser s uname = some row)
    (hsid : row.session_id = some rsid) (hrne : rsid ≠ "") (hdiff : rsid ≠ req.sessionID) :
    requiereSesionUnica s req = (.otraMaquina, { s with store := storeErase s.store req.sessionID }) := by
  unfold requiereSesionUnica
  rw [h]
  dsimp only
  rw [if_neg hne, hg]
  dsimp only
  rw [hsid]
  dsimp only
  rw [if_neg hrne, if_pos hdiff]

theorem guard_expirada (s : ServerState) (req : Request) (uname : String) (row : UserRow)
    (h : req.usuario = some uname) (hne : uname ≠ "") (hg : getUser s uname = some row)
    (hsid : row.session_id = some req.sessionID) (hrne : req.sessionID ≠ "")
    (hstore : storeGet s.store req.sessionID = none) :
    requiereSesionUnica s req =
      (.sesionExpirada,
       { clearClaim s uname with store := storeErase (clearClaim s uname).store req.sessionID }) := by
  unfold requiereSesionUnica
  rw [h]
  dsimp only
  rw [if_neg hne, hg]
  dsimp only
  rw [hsid]
  dsimp only
  rw [if_neg hrne, if_neg (by simp), hstore]

theorem guard_allowed (s : ServerState) (req : Request) (uname : String) (row : UserRow)
    (rec : SessRec)
    (h : req.usuario = some uname) (hne : uname ≠ "") (hg : getUser s uname = some row)
    (hsid : row.session_id = some req.sessionID) (hrne : req.sessionID ≠ "")
    (hstore : storeGet s.store req.sessionID = some rec) :
    requiereSesionUnica s req = (.allowed, s) := by
  unfold requiereSesionUnica
  rw [h]
  dsimp only
  rw [if_neg hne, hg]
  dsimp only
  rw [hsid]
  dsimp only
  rw [if_neg hrne, if_neg (by simp), hstore]

/-- The guard allows a request only when the looked-up row's claim equals the
presented session identifier. -/
theorem guard_allowed_inversion (s : ServerState) (req : Request)
    (h : (requiereSesionUnica s req).1 = .allowed) :
    ∃ uname row, req.usuario = some uname ∧ uname ≠ "" ∧ getUser s uname = some row ∧
      row.session_id = some req.sessionID := by
  unfold requiereSesionUnica at h
  cases hu : req.usuario with
  | none => rw [hu] at h; cases h
  | some uname =>
    rw [hu] at h
    dsimp only at h
    by_cases hne : uname = ""
    · rw [if_pos hne] at h; cases h
    · rw [if_neg hne] at h
      cases hg : getUser s uname with
      | none => rw [hg] at h; cases h
      | some row =>
        rw [hg] at h
        dsimp only at h
        cases hsid : row.session_id with
        | none => rw [hsid] at h; cases h
        | some rsid =>
          rw [hsid] at h
          dsimp only at h
          by_cases hrne : rsid = ""
          · rw [if_pos hrne] at h; cases h
          · rw [if_neg hrne] at h
            by_cases hdiff : rsid ≠ req.sessionID
            · rw [if_pos hdiff] at h; cases h
            · rw [if_neg hdiff] at h
              push_neg at hdiff
              exact ⟨uname, row, rfl, hne, hg, by rw [hsid, hdiff]⟩

theorem find?_username_of_mem_nodup {l : List UserRow} {r : UserRow} {name : String}
    (hnd : (l.map (fun x => x.username)).Nodup) (hm : r ∈ l) (hn : r.username = name) :
    l.find? (fun x => x.username == name) = some r := by
  induction l with
  | nil => cases hm
  | cons a t ih =>
    rw [List.map_cons, List.nodup_cons] at hnd
    rcases List.mem_cons.mp hm with rfl | hmt
    · rw [List.find?_cons_of_pos _ (by simp [hn])]
    · by_cases ha : a.username = name
      · exact absurd (by rw [ha, ← hn]; exact List.mem_map_of_mem _ hmt) hnd.1
      · rw [List.find?_cons_of_neg _ (by simp [ha])]
        exact ih hnd.2 hmt

theorem getUser_of_mem_nodup {s : ServerState} {r : UserRow} {name : String}
    (hnd : (s.users.map (fun x => x.username)).Nodup)
    (hm : r ∈ s.users) (hn : r.username = name) :
    getUser s name = some r :=
  find?_username_of_mem_nodup hnd hm hn

/-! ### The claims -/

/-- C1: after the eviction step has run, the login writes the fresh session
identifier into the account row through the single conditional update
`UPDATE users SET session_id = ? WHERE username = ? AND session_id IS NULL`:
the write takes effect exactly when the row's session_id is currently null,
and when zero rows are affected the handler redirects with `sesion_activa`
and never attaches the username to the regenerated session. -/
theorem claim1_conditional_claim (s : ServerState) (req : Request)
    (uA uB pw : Option String) (freshSid uf : String) (user row2 : UserRow)
    (huf : jsOrStr uA uB = some uf) (hne : uf ≠ "")
    (hauth : autenticar s uf pw = some user)
    (hrow2 : getUser (loginRegen (loginEvict s user) req) user.username = some row2)
    (hnd : ((loginRegen (loginEvict s user) req).users.map (fun x => x.username)).Nodup) :
    ((conditionalClaim (loginRegen (loginEvict s user) req) user.username freshSid).2 ≠ 0 ↔
      row2.session_id = none) ∧
    ((conditionalClaim (loginRegen (loginEvict s user) req) user.username freshSid).2 = 0 →
      login s req uA uB pw freshSid =
        (.sesionActiva,
         (conditionalClaim (loginRegen (loginEvict s user) req) user.username freshSid).1,
         ⟨freshSid, none⟩)) ∧
    ((conditionalClaim (loginRegen (loginEvict s user) req) user.username freshSid).2 ≠ 0 →
      (login s req uA uB pw freshSid).1 = .inicio ∧
      getUser (login s req uA uB pw freshSid).2.1 user.username =
        some { row2 with session_id := some freshSid }) := by
  have hiff : (conditionalClaim (loginRegen (loginEvict s user) req) user.username freshSid).2 ≠ 0 ↔
      row2.session_id = none := by
    rw [conditionalClaim_changes_ne_zero]
    constructor
    · rintro ⟨r, hr, h1, h2⟩
      have := getUser_of_mem_nodup hnd hr h1
      rw [hrow2] at this
      injection this with hrr
      rw [hrr]
      exact h2
    · intro h2
      exact ⟨row2, getUser_mem hrow2, getUser_username hrow2, h2⟩
  refine ⟨hiff, ?_, ?_⟩
  · intro h0
    rw [login_eq_claim_step s req uA uB pw freshSid uf user huf hne hauth, if_pos h0]
  · intro h0
    rw [login_eq_claim_step s req uA uB pw freshSid uf user huf hne hauth, if_neg h0]
    refine ⟨rfl, ?_⟩
    rw [getUser_state_users, getUser_conditionalClaim, hrow2]
    have h2 : row2.session_id = none := hiff.mp h0
    simp [getUser_username hrow2, h2]

/-- C1 witness: a concrete state in which the conditional update affects zero
rows (session_id holds a non-null value that the eviction check skipped), so the
login redirects with `sesion_activa` and leaves the new session unattached. -/
theorem claim1_conditional_claim_witness :
    (conditionalClaim (loginRegen (loginEvict ⟨[⟨"u", some "p", some ""⟩], []⟩
        ⟨"u", some "p", some ""⟩) ⟨"r0", none⟩) "u" "A").2 = 0 ∧
    login ⟨[⟨"u", some "p", some ""⟩], []⟩ ⟨"r0", none⟩ (some "u") none (some "p") "A" =
      (.sesionActiva,
       (conditionalClaim (loginRegen (loginEvict ⟨[⟨"u", some "p", some ""⟩], []⟩
          ⟨"u", some "p", some ""⟩) ⟨"r0", none⟩) "u" "A").1,
       ⟨"A", none⟩) := by
  refine ⟨by decide, ?_⟩
  exact (claim1_conditional_claim ⟨[⟨"u", some "p", some ""⟩], []⟩ ⟨"r0", none⟩
    (some "u") none (some "p") "A" "u" ⟨"u", some "p", some ""⟩ ⟨"u", some "p", some ""⟩
    (by decide) (by decide) (by decide) (by decide) (by decide)).2.1 (by decide)

/-- C4: guard-check rejects, in this order: no authenticated username or absent
account yields a plain redirect to login with no state change; a null claim
yields `sesion_invalida` and destroys the caller's local session; a claim
different from the presented identifier yields `conectado_en_otra_maquina` and
destroys the caller's local session. -/
theorem claim4_guard_rejection_order (s : ServerState) (req : Request) :
    (truthyStr req.usuario = false → requiereSesionUnica s req = (.redirectLogin, s)) ∧
    (∀ uname, req.usuario = some uname → uname ≠ "" → getUser s uname = none →
      requiereSesionUnica s req = (.redirectLogin, s)) ∧
    (∀ uname row, req.usuario = some uname → uname ≠ "" → getUser s uname = some row →
      row.session_id = none →
      requiereSesionUnica s req =
        (.sesionInvalida, { s with store := storeErase s.store req.sessionID })) ∧
    (∀ uname row rsid, req.usuario = some uname → uname ≠ "" → getUser s uname = some row →
      row.session_id = some rsid → rsid ≠ "" → rsid ≠ req.sessionID →
      requiereSesionUnica s req =
        (.otraMaquina, { s with store := storeErase s.store req.sessionID })) := by
  refine ⟨?_, ?_, ?_, ?_⟩
  · intro h
    cases hu : req.usuario with
    | none => exact guard_unauth_none s req hu
    | some uname =>
      rw [hu] at h
      have : uname = "" := by simpa [truthyStr] using h
      exact guard_unauth_empty s req (by rw [hu, this])
  · intro uname hu hne hg
    exact guard_unauth_nouser s req uname hu hne hg
  · intro uname row hu hne hg hsid
    exact guard_invalida s req uname row hu hne hg hsid
  · intro uname row rsid hu hne hg hsid hrne hdiff
    exact guard_otra s req uname row rsid hu hne hg hsid hrne hdiff

/-- C4 witness: a stale session identifier on an account claimed elsewhere is
rejected with the distinct `conectado_en_otra_maquina` redirect. -/
theorem claim4_guard_rejection_order_witness :
    requiereSesionUnica ⟨[⟨"u", some "p", some "B"⟩], [("B", ⟨some "u"⟩)]⟩ ⟨"A", some "u"⟩ =
      (.otraMaquina, ⟨[⟨"u", some "p", some "B"⟩], [("B", ⟨some "u"⟩)]⟩) := by
  have := (claim4_guard_rejection_order ⟨[⟨"u", some "p", some "B"⟩], [("B", ⟨some "u"⟩)]⟩
    ⟨"A", some "u"⟩).2.2.2 "u" ⟨"u", some "p", some "B"⟩ "B"
    (by decide) (by decide) (by decide) (by decide) (by decide) (by decide)
  rw [this]
  decide

/-- C5: when the caller presents the claimed identifier but its store entry is
gone, the guard clears the account's claim to null, destroys the caller's local
session, rejects with `sesion_expirada`, and a subsequent login for that
account (with passing credentials) succeeds with `inicio` and no manual
cleanup. -/
theorem claim5_expired_branch (s : ServerState) (req : Request) (uname : String) (row : UserRow)
    (hu : req.usuario = some uname) (hne : uname ≠ "") (hg : getUser s uname = some row)
    (hsid : row.session_id = some req.sessionID) (hrne : req.sessionID ≠ "")
    (hstore : storeGet s.store req.sessionID = none) :
    (requiereSesionUnica s req).1 = .sesionExpirada ∧
    getUser (requiereSesionUnica s req).2 uname = some { row with session_id := none } ∧
    storeGet (requiereSesionUnica s req).2.store req.sessionID = none ∧
    (∀ (req2 : Request) (pw : Option String) (freshSid : String),
      (truthyStr row.password = true → truthyStr pw = true → row.password = pw) →
      (login (requiereSesionUnica s req).2 req2 (some uname) none pw freshSid).1 = .inicio) := by
  rw [guard_expirada s req uname row hu hne hg hsid hrne hstore]
  have hgc : getUser (clearClaim s uname) uname = some { row with session_id := none } := by
    rw [getUser_clearClaim, hg]
    simp [getUser_username hg]
  refine ⟨rfl, hgc, ?_, ?_⟩
  · exact storeGet_erase_self _ _
  · intro req2 pw freshSid hpw
    have hgc2 : getUser
        ({ clearClaim s uname with store := storeErase (clearClaim s uname).store req.sessionID } :
          ServerState) uname = some { row with session_id := none } := hgc
    have hauth2 : autenticar
        ({ clearClaim s uname with store := storeErase (clearClaim s uname).store req.sessionID } :
          ServerState) uname pw = some { row with session_id := none } := by
      unfold autenticar
      rw [hgc2]
      dsimp only
      rw [if_neg (by
        simp only [Bool.and_eq_true, bne_iff_ne, ne_eq]
        rintro ⟨⟨h1, h2⟩, h3⟩
        exact h3 (hpw h1 h2))]
    exact (login_success _ req2 (some uname) none pw freshSid uname _
      (by simp [jsOrStr, truthyStr, hne]) hne hauth2 (Or.inl rfl)).1

/-- C5 witness: concrete expired claim, cleared by the guard, after which the
same user logs straight back in. -/
theorem claim5_expired_branch_witness :
    (requiereSesionUnica ⟨[⟨"u", some "p", some "A"⟩], []⟩ ⟨"A", some "u"⟩).1 = .sesionExpirada ∧
    (login (requiereSesionUnica ⟨[⟨"u", some "p", some "A"⟩], []⟩ ⟨"A", some "u"⟩).2
      ⟨"A", none⟩ (some "u") none (some "p") "B").1 = .inicio := by
  have := claim5_expired_branch ⟨[⟨"u", some "p", some "A"⟩], []⟩ ⟨"A", some "u"⟩ "u"
    ⟨"u", some "p", some "A"⟩ (by decide) (by decide) (by decide) (by decide) (by decide) (by decide)
  exact ⟨this.1, this.2.2.2 ⟨"A", none⟩ (some "p") "B" (by decide)⟩

/-- C6: logout removes the caller's session from the store (and touches no
other entry) and clears the account's claim exactly when the claim equals the
session being logged out; a superseded session's logout leaves the newer claim
in place, as in the concrete login-A, login-B-evicts, logout-A scenario. -/
theorem claim6_logout (s : ServerState) (req : Request) (uname : String)
    (hu : req.usuario = some uname) (hne : uname ≠ "") :
    storeGet (logout s req).1.store req.sessionID = none ∧
    (∀ y, y ≠ req.sessionID → storeGet (logout s req).1.store y = storeGet s.store y) ∧
    (∀ row, getUser s uname = some row →
      (row.session_id = some req.sessionID →
        getUser (logout s req).1 uname = some { row with session_id := none }) ∧
      (row.session_id ≠ some req.sessionID → (logout s req).1.users = s.users)) ∧
    getUser (logout
      (login (login ⟨[⟨"u", some "p", none⟩], []⟩ ⟨"r0", none⟩ (some "u") none (some "p") "A").2.1
        ⟨"r1", none⟩ (some "u") none (some "p") "B").2.1
      ⟨"A", some "u"⟩).1 "u" = some ⟨"u", some "p", some "B"⟩ := by
  unfold logout
  rw [hu]
  dsimp only
  rw [if_neg hne]
  have husers : ∀ st : List (String × SessRec), getUser { s with store := st } uname = getUser s uname :=
    fun st => rfl
  refine ⟨?_, ?_, ?_, by decide⟩
  · cases hg : getUser s uname with
    | none =>
      rw [husers, hg]
      exact storeGet_erase_self _ _
    | some row =>
      rw [husers, hg]
      dsimp only
      by_cases hb : row.session_id == some req.sessionID
      · rw [if_pos hb]
        rw [show (clearClaim { s with store := storeErase s.store req.sessionID } uname).store
              = storeErase s.store req.sessionID from rfl]
        exact storeGet_erase_self _ _
      · rw [if_neg hb]
        exact storeGet_erase_self _ _
  · intro y hy
    cases hg : getUser s uname with
    | none =>
      rw [husers, hg]
      exact storeGet_erase_other _ _ _ hy
    | some row =>
      rw [husers, hg]
      dsimp only
      by_cases hb : row.session_id == some req.sessionID
      · rw [if_pos hb]
        rw [show (clearClaim { s with store := storeErase s.store req.sessionID } uname).store
              = storeErase s.store req.sessionID from rfl]
        exact storeGet_erase_other _ _ _ hy
      · rw [if_neg hb]
        exact storeGet_erase_other _ _ _ hy
  · intro row hg
    rw [husers, hg]
    dsimp only
    constructor
    · intro heq
      rw [if_pos (by simp [heq])]
      rw [getUser_clearClaim]
      rw [show getUser ({ s with store := storeErase s.store req.sessionID } : ServerState) uname
            = some row from hg]
      simp [getUser_username hg]
    · intro hneq
      rw [if_neg (by simpa using hneq)]

/-- C6 witness: logging out the current session clears the claim and removes
the store entry. -/
theorem claim6_logout_witness :
    storeGet (logout ⟨[⟨"u", some "p", some "B"⟩], [("B", ⟨some "u"⟩)]⟩ ⟨"B", some "u"⟩).1.store "B"
      = none ∧
    getUser (logout ⟨[⟨"u", some "p", some "B"⟩], [("B", ⟨some "u"⟩)]⟩ ⟨"B", some "u"⟩).1 "u"
      = some ⟨"u", some "p", none⟩ := by
  have := claim6_logout ⟨[⟨"u", some "p", some "B"⟩], [("B", ⟨some "u"⟩)]⟩ ⟨"B", some "u"⟩ "u"
    (by decide) (by decide)
  exact ⟨this.1, (this.2.2.1 ⟨"u", some "p", some "B"⟩ (by decide)).1 (by decide)⟩

/-- C7 counterexample: the account stores password "secret", the submitted
password is the empty string — not equal to the stored one — yet the login
succeeds with `inicio` instead of failing with the `credenciales` redirect,
because `autenticar` skips the comparison whenever either side is falsy. -/
theorem claim7_counterexample :
    (some "" : Option String) ≠ some "secret" ∧
    (login ⟨[⟨"u", some "secret", none⟩], []⟩ ⟨"r0", none⟩ (some "u") none (some "") "A").1
      = .inicio ∧
    (login ⟨[⟨"u", some "secret", none⟩], []⟩ ⟨"r0", none⟩ (some "u") none (some "") "A").1
      ≠ .credenciales := by
  refine ⟨by decide, by decide, by decide⟩

/-- C7 amended: the login fails with the `credenciales` redirect exactly when
the user field is falsy, the account is absent, or the stored and the submitted
credential are both truthy (non-null, non-empty) and differ; the exact-match
comparison is therefore only enforced between two truthy credential values. -/
theorem claim7_credential_check (s : ServerState) (req : Request)
    (uA uB pw : Option String) (freshSid : String) :
    (login s req uA uB pw freshSid).1 = .credenciales ↔
      jsOrStr uA uB = none ∨ jsOrStr uA uB = some "" ∨
      (∃ uf, jsOrStr uA uB = some uf ∧ uf ≠ "" ∧
        (getUser s uf = none ∨
         ∃ row, getUser s uf = some row ∧ truthyStr row.password = true ∧
           truthyStr pw = true ∧ row.password ≠ pw)) := by
  unfold login
  cases huf : jsOrStr uA uB with
  | none => simp
  | some uf =>
    dsimp only
    by_cases hne : uf = ""
    · subst hne
      simp
    · rw [if_neg hne]
      cases hauth : autenticar s uf pw with
      | none =>
        rw [autenticar_eq_none] at hauth
        simp only [Option.some.injEq]
        constructor
        · intro _
          refine Or.inr (Or.inr ⟨uf, rfl, hne, ?_⟩)
          rcases hauth with h | ⟨row, h1, h2, h3, h4⟩
          · exact Or.inl h
          · exact Or.inr ⟨row, h1, h2, h3, h4⟩
        · intro _; trivial
      | some user =>
        dsimp only
        have hnotnone : ¬(autenticar s uf pw = none) := by rw [hauth]; simp
        rw [autenticar_eq_none] at hnotnone
        push_neg at hnotnone
        constructor
        · intro h
          by_cases h0 : (conditionalClaim (loginRegen (loginEvict s user) req) user.username freshSid).2 = 0
          · rw [if_pos h0] at h; cases h
          · rw [if_neg h0] at h; cases h
        · rintro (h | h | ⟨uf', huf', hne', hrest⟩)
          · cases h
          · injection h with h; exact absurd h hne
          · injection huf' with huf'
            subst huf'
            rcases hrest with h | ⟨row, h1, h2, h3, h4⟩
            · exact absurd h hnotnone.1
            · exact absurd (hnotnone.2 row h1 h2 h3) h4

/-- C7 amended witness: a wrong non-empty password against a non-empty stored
password is rejected with `credenciales`. -/
theorem claim7_credential_check_witness :
    (login ⟨[⟨"u", some "secret", none⟩], []⟩ ⟨"r0", none⟩ (some "u") none (some "wrong") "A").1
      = .credenciales := by
  rw [claim7_credential_check ⟨[⟨"u", some "secret", none⟩], []⟩ ⟨"r0", none⟩
    (some "u") none (some "wrong") "A"]
  exact Or.inr (Or.inr ⟨"u", by decide, by decide,
    Or.inr ⟨⟨"u", some "secret", none⟩, by decide, by decide, by decide, by decide⟩⟩)

/-- C8: a login on an account holding a non-null claim destroys that session in
the store and nulls the claim before the conditional claim step, completes with
`inicio`, and immediately afterwards the prior identifier no longer passes
guard-check, being rejected as invalidated or superseded. -/
theorem claim8_prior_session_evicted (s : ServerState) (req : Request)
    (uA uB pw : Option String) (freshSid uf old : String) (user : UserRow)
    (huf : jsOrStr uA uB = some uf) (hne : uf ≠ "")
    (hauth : autenticar s uf pw = some user)
    (hold : user.session_id = some old) (holdne : old ≠ "")
    (hfne : freshSid ≠ "") (hdiff : freshSid ≠ old) :
    storeGet (loginEvict s user).store old = none ∧
    getUser (loginEvict s user) uf = some { user with session_id := none } ∧
    (login s req uA uB pw freshSid).1 = .inicio ∧
    ((requiereSesionUnica (login s req uA uB pw freshSid).2.1 ⟨old, some uf⟩).1 = .sesionInvalida ∨
     (requiereSesionUnica (login s req uA uB pw freshSid).2.1 ⟨old, some uf⟩).1 = .otraMaquina) := by
  have hg : getUser s uf = some user := autenticar_getUser hauth
  have huname : user.username = uf := getUser_username hg
  have hwf : user.session_id = none ∨ truthyStr user.session_id = true :=
    Or.inr (by simp [hold, truthyStr, holdne])
  have hls := login_success s req uA uB pw freshSid uf user huf hne hauth hwf
  refine ⟨?_, ?_, hls.1, ?_⟩
  · rw [loginEvict_store s user old hold holdne]
    exact storeGet_erase_self _ _
  · rw [← huname]
    exact getUser_loginEvict s user (by rw [huname]; exact hg) hwf
  · refine Or.inr ?_
    have := guard_otra (login s req uA uB pw freshSid).2.1 ⟨old, some uf⟩ uf
      ⟨uf, user.password, some freshSid⟩ freshSid rfl hne hls.2.1 rfl hfne hdiff
    rw [this]

/-- C8 witness: relogin of the same account evicts the old session "A"; the old
identifier is then rejected as superseded. -/
theorem claim8_prior_session_evicted_witness :
    (login ⟨[⟨"u", some "p", some "A"⟩], [("A", ⟨some "u"⟩)]⟩ ⟨"r1", none⟩
      (some "u") none (some "p") "B").1 = .inicio ∧
    ((requiereSesionUnica (login ⟨[⟨"u", some "p", some "A"⟩], [("A", ⟨some "u"⟩)]⟩ ⟨"r1", none⟩
        (some "u") none (some "p") "B").2.1 ⟨"A", some "u"⟩).1 = .sesionInvalida ∨
     (requiereSesionUnica (login ⟨[⟨"u", some "p", some "A"⟩], [("A", ⟨some "u"⟩)]⟩ ⟨"r1", none⟩
        (some "u") none (some "p") "B").2.1 ⟨"A", some "u"⟩).1 = .otraMaquina) := by
  have := claim8_prior_session_evicted ⟨[⟨"u", some "p", some "A"⟩], [("A", ⟨some "u"⟩)]⟩
    ⟨"r1", none⟩ (some "u") none (some "p") "B" "u" "A" ⟨"u", some "p", some "A"⟩
    (by decide) (by decide) (by decide) (by decide) (by decide) (by decide) (by decide)
  exact ⟨this.2.2.1, this.2.2.2⟩

/-- C9: round trip — a successful login yields a session that passes
guard-check unchanged; after logging that session out, a fresh request carrying
the same identifier is rejected as unauthenticated or invalidated. -/
theorem claim9_roundtrip (s : ServerState) (req : Request) (uA uB pw : Option String)
    (freshSid uf : String) (user : UserRow)
    (huf : jsOrStr uA uB = some uf) (hne : uf ≠ "")
    (hauth : autenticar s uf pw = some user)
    (hwf : user.session_id = none ∨ truthyStr user.session_id = true)
    (hfne : freshSid ≠ "") :
    (requiereSesionUnica (login s req uA uB pw freshSid).2.1
      (login s req uA uB pw freshSid).2.2).1 = .allowed ∧
    (requiereSesionUnica (login s req uA uB pw freshSid).2.1
      (login s req uA uB pw freshSid).2.2).2 = (login s req uA uB pw freshSid).2.1 ∧
    (let lo := logout (login s req uA uB pw freshSid).2.1 (login s req uA uB pw freshSid).2.2
     (requiereSesionUnica lo.1 (freshRequest lo.1 freshSid)).1 = .redirectLogin ∨
     (requiereSesionUnica lo.1 (freshRequest lo.1 freshSid)).1 = .sesionInvalida) := by
  have hls := login_success s req uA uB pw freshSid uf user huf hne hauth hwf
  have hreq : (login s req uA uB pw freshSid).2.2 = ⟨freshSid, some uf⟩ := hls.2.2.2.1
  have hallowed := guard_allowed (login s req uA uB pw freshSid).2.1
    (login s req uA uB pw freshSid).2.2 uf ⟨uf, user.password, some freshSid⟩ ⟨some uf⟩
    (by rw [hreq]) hne hls.2.1 (by rw [hreq]) (by rw [hreq]; exact hfne)
    (by rw [hreq]; exact hls.2.2.1)
  refine ⟨by rw [hallowed], by rw [hallowed], ?_⟩
  have hlo : storeGet (logout (login s req uA uB pw freshSid).2.1
      (login s req uA uB pw freshSid).2.2).1.store freshSid = none := by
    unfold logout
    rw [hreq]
    dsimp only
    rw [if_neg hne]
    rw [show getUser ({ (login s req uA uB pw freshSid).2.1 with
          store := storeErase (login s req uA uB pw freshSid).2.1.store freshSid } : ServerState) uf
        = some ⟨uf, user.password, some freshSid⟩ from hls.2.1]
    dsimp only
    rw [if_pos (by simp)]
    exact storeGet_erase_self _ _
  refine Or.inl ?_
  rw [show freshRequest (logout (login s req uA uB pw freshSid).2.1
        (login s req uA uB pw freshSid).2.2).1 freshSid = ⟨freshSid, none⟩ from by
      simp [freshRequest, hlo]]
  rw [guard_unauth_none _ ⟨freshSid, none⟩ rfl]

/-- C9 witness: concrete round trip for user "u" with fresh session "A". -/
theorem claim9_roundtrip_witness :
    (requiereSesionUnica (login ⟨[⟨"u", some "p", none⟩], []⟩ ⟨"r0", none⟩
        (some "u") none (some "p") "A").2.1
      (login ⟨[⟨"u", some "p", none⟩], []⟩ ⟨"r0", none⟩
        (some "u") none (some "p") "A").2.2).1 = .allowed := by
  exact (claim9_roundtrip ⟨[⟨"u", some "p", none⟩], []⟩ ⟨"r0", none⟩ (some "u") none (some "p")
    "A" "u" ⟨"u", some "p", none⟩ (by decide) (by decide) (by decide) (Or.inl (by decide))
    (by decide)).1

/-- C10: a guard-check that allows the request through changes nothing at all,
and the only guard path that writes to the users table is the expired-session
branch. -/
theorem claim10_guard_frame (s : ServerState) (req : Request) :
    ((requiereSesionUnica s req).1 = .allowed → (requiereSesionUnica s req).2 = s) ∧
    ((requiereSesionUnica s req).2.users ≠ s.users →
      (requiereSesionUnica s req).1 = .sesionExpirada) := by
  cases hu : req.usuario with
  | none =>
    rw [guard_unauth_none s req hu]
    exact ⟨fun _ => rfl, fun h => absurd rfl h⟩
  | some uname =>
    by_cases hne : uname = ""
    · rw [guard_unauth_empty s req (by rw [hu, hne])]
      exact ⟨fun _ => rfl, fun h => absurd rfl h⟩
    · cases hg : getUser s uname with
      | none =>
        rw [guard_unauth_nouser s req uname hu hne hg]
        exact ⟨fun _ => rfl, fun h => absurd rfl h⟩
      | some row =>
        cases hsid : row.session_id with
        | none =>
          rw [guard_invalida s req uname row hu hne hg hsid]
          exact ⟨(fun h => nomatch h), fun h => absurd rfl h⟩
        | some rsid =>
          by_cases hrne : rsid = ""
          · rw [show requiereSesionUnica s req =
                (.sesionInvalida, { s with store := storeErase s.store req.sessionID }) from ?ev]
            · exact ⟨(fun h => nomatch h), fun h => absurd rfl h⟩
            case ev =>
              unfold requiereSesionUnica
              rw [hu]
              dsimp only
              rw [if_neg hne, hg]
              dsimp only
              rw [hsid]
              dsimp only
              rw [if_pos hrne]
          · by_cases hdiff : rsid ≠ req.sessionID
            · rw [guard_otra s req uname row rsid hu hne hg hsid hrne hdiff]
              exact ⟨(fun h => nomatch h), fun h => absurd rfl h⟩
            · push_neg at hdiff
              cases hst : storeGet s.store req.sessionID with
              | none =>
                rw [guard_expirada s req uname row hu hne hg (by rw [hsid, hdiff])
                  (by rw [← hdiff]; exact hrne) hst]
                exact ⟨(fun h => nomatch h), fun _ => rfl⟩
              | some rec =>
                rw [guard_allowed s req uname row rec hu hne hg (by rw [hsid, hdiff])
                  (by rw [← hdiff]; exact hrne) hst]
                exact ⟨fun _ => rfl, fun h => absurd rfl h⟩

/-- C10 witness: a concrete allowed guard-check returns the state untouched. -/
theorem claim10_guard_frame_witness :
    (requiereSesionUnica ⟨[⟨"u", some "p", some "A"⟩], [("A", ⟨some "u"⟩)]⟩ ⟨"A", some "u"⟩).2
      = ⟨[⟨"u", some "p", some "A"⟩], [("A", ⟨some "u"⟩)]⟩ :=
  (claim10_guard_frame ⟨[⟨"u", some "p", some "A"⟩], [("A", ⟨some "u"⟩)]⟩ ⟨"A", some "u"⟩).1
    (by decide)

/-! ### The claimed-session invariant (C3) -/

/-- Every non-null claim is a non-empty identifier with a live entry in the session store. -/
def ClaimsLive (s : ServerState) : Prop :=
  ∀ r ∈ s.users, ∀ x, r.session_id = some x → x ≠ "" ∧ (storeGet s.store x).isSome = true

/-- No two accounts hold the same non-null claim (claims are per-account unique). -/
def ClaimsInj (s : ServerState) : Prop :=
  ∀ r ∈ s.users, ∀ q ∈ s.users, ∀ x, r.session_id = some x → q.session_id = some x →
    r.username = q.username

/-- The users table keys are unique (username is the primary key). -/
def UsersNodup (s : ServerState) : Prop := (s.users.map (fun r => r.username)).Nodup

/-- The session store holds at most one record per identifier, so a live claim
points to exactly one entry. -/
def StoreNodup (s : ServerState) : Prop := (s.store.map (fun p => p.1)).Nodup

/-- The state invariant of the session-claim core: each account's
claimed session is null or identifies exactly one live store entry, and no two
accounts share a claim. -/
def SessionInvariant (s : ServerState) : Prop :=
  ClaimsLive s ∧ ClaimsInj s ∧ UsersNodup s ∧ StoreNodup s

instance decidableOptionForall (o : Option String) (P : String → Prop) [DecidablePred P] :
    Decidable (∀ x, o = some x → P x) :=
  match o with
  | none => isTrue (by intro x h; cases h)
  | some a =>
    if h : P a then isTrue (by intro x hx; injection hx with hx; rwa [← hx])
    else isFalse (fun hall => h (hall a rfl))

instance (s : ServerState) : Decidable (ClaimsLive s) := by
  unfold ClaimsLive; infer_instance

instance (s : ServerState) : Decidable (ClaimsInj s) := by
  unfold ClaimsInj; infer_instance

instance (s : ServerState) : Decidable (SessionInvariant s) := by
  unfold SessionInvariant UsersNodup StoreNodup; infer_instance

/-- C3 counterexample: a state satisfying the invariant — u2's claim "X" is
live — on which one complete login execution for u1, arriving on a request
whose cookie session is "X" (the browser previously logged in as u2), ends
with u2's claim dangling: `regenerate` destroyed the "X" store entry while
u2's claimed_session_id still holds "X". -/
theorem claim3_counterexample :
    SessionInvariant ⟨[⟨"u1", some "p1", none⟩, ⟨"u2", some "p2", some "X"⟩],
      [("X", ⟨some "u2"⟩)]⟩ ∧
    (login ⟨[⟨"u1", some "p1", none⟩, ⟨"u2", some "p2", some "X"⟩], [("X", ⟨some "u2"⟩)]⟩
      ⟨"X", some "u2"⟩ (some "u1") none (some "p1") "Y").1 = .inicio ∧
    ¬ ClaimsLive (login ⟨[⟨"u1", some "p1", none⟩, ⟨"u2", some "p2", some "X"⟩],
      [("X", ⟨some "u2"⟩)]⟩ ⟨"X", some "u2"⟩ (some "u1") none (some "p1") "Y").2.1 := by
  exact ⟨by decide, by decide, by decide⟩

theorem map_fst_storeErase_sublist (st : List (String × SessRec)) (x : String) :
    ((storeErase st x).map (fun p => p.1)).Sublist (st.map (fun p => p.1)) :=
  (List.filter_sublist st).map _

theorem nodup_map_fst_storeErase {st : List (String × SessRec)}
    (h : (st.map (fun p => p.1)).Nodup) (x : String) :
    ((storeErase st x).map (fun p => p.1)).Nodup :=
  h.sublist (map_fst_storeErase_sublist st x)

theorem not_mem_map_fst_storeErase (st : List (String × SessRec)) (x : String) :
    x ∉ (storeErase st x).map (fun p => p.1) := by
  intro hmem
  rcases List.mem_map.mp hmem with ⟨p, hp, hpx⟩
  have := List.of_mem_filter hp
  simp [hpx] at this

theorem nodup_map_fst_storeSet {st : List (String × SessRec)}
    (h : (st.map (fun p => p.1)).Nodup) (x : String) (rec : SessRec) :
    ((storeSet st x rec).map (fun p => p.1)).Nodup := by
  rw [storeSet, List.map_cons]
  exact List.nodup_cons.mpr ⟨not_mem_map_fst_storeErase st x, nodup_map_fst_storeErase h x⟩

theorem map_username_map_update (l : List UserRow) (g : UserRow → UserRow)
    (h : ∀ r, (g r).username = r.username) :
    (l.map g).map (fun r => r.username) = l.map (fun r => r.username) := by
  rw [List.map_map]
  exact List.map_congr_left (fun a _ => h a)

/-- Characterisation of the users table after a successful login: the account's
row now claims the fresh identifier, every other row is untouched. -/
theorem login_users_char (s : ServerState) (req : Request) (uA uB pw : Option String)
    (freshSid uf : String) (user : UserRow)
    (huf : jsOrStr uA uB = some uf) (hne : uf ≠ "")
    (hauth : autenticar s uf pw = some user)
    (hwf : user.session_id = none ∨ truthyStr user.session_id = true)
    (hnd : UsersNodup s) :
    ∀ r' ∈ (login s req uA uB pw freshSid).2.1.users,
      (r' ∈ s.users ∧ r'.username ≠ uf) ∨ r' = ⟨uf, user.password, some freshSid⟩ := by
  have hg : getUser s uf = some user := autenticar_getUser hauth
  have huname : user.username = uf := getUser_username hg
  have hEv2 : getUser (loginRegen (loginEvict s user) req) user.username
      = some { user with session_id := none } :=
    getUser_loginEvict s user (by rw [huname]; exact hg) hwf
  have hchanges : (conditionalClaim (loginRegen (loginEvict s user) req) user.username freshSid).2 ≠ 0 := by
    rw [conditionalClaim_changes_ne_zero]
    exact ⟨{ user with session_id := none }, getUser_mem hEv2, by simp, rfl⟩
  rw [login_eq_claim_step s req uA uB pw freshSid uf user huf hne hauth, if_neg hchanges]
  intro r' hr'
  have hr'' : r' ∈ (conditionalClaim (loginRegen (loginEvict s user) req) user.username freshSid).1.users :=
    hr'
  rw [conditionalClaim] at hr''
  dsimp only at hr''
  rcases List.mem_map.mp hr'' with ⟨r1, hr1, rfl⟩
  have hr1e : r1 ∈ (loginEvict s user).users := hr1
  unfold loginEvict at hr1e
  by_cases htr : truthyStr user.session_id = true
  · rw [if_pos htr] at hr1e
    have hr1e' : r1 ∈ (clearClaim { s with store := storeErase s.store (user.session_id.getD "") }
        user.username).users := hr1e
    rw [clearClaim] at hr1e'
    dsimp only at hr1e'
    rcases List.mem_map.mp hr1e' with ⟨r, hr, rfl⟩
    by_cases hru : r.username = user.username
    · have : r = user := by
        have h1 := getUser_of_mem_nodup hnd hr (by rw [hru, huname])
        rw [hg] at h1
        injection h1 with h2
        exact h2.symm
      subst this
      rw [if_pos (by simp [hru])]
      rw [if_pos (by simp)]
      right
      rw [← huname]
    · rw [if_neg (by simp [hru])]
      rw [if_neg (by simp [hru])]
      exact Or.inl ⟨hr, by rw [← huname]; exact hru⟩
  · rw [if_neg htr] at hr1e
    have hnone : user.session_id = none := by
      rcases hwf with h | h
      · exact h
      · exact absurd h htr
    by_cases hru : r1.username = user.username
    · have : r1 = user := by
        have h1 := getUser_of_mem_nodup hnd hr1e (by rw [hru, huname])
        rw [hg] at h1
        injection h1 with h2
        exact h2.symm
      subst this
      rw [if_pos (by simp [hru, hnone])]
      right
      rw [← huname]
    · rw [if_neg (by simp [hru])]
      exact Or.inl ⟨hr1e, by rw [← huname]; exact hru⟩

theorem clearClaim_users_char (s : ServerState) (name : String) :
    ∀ r' ∈ (clearClaim s name).users,
      (r' ∈ s.users ∧ r'.username ≠ name) ∨ r'.session_id = none := by
  intro r' hr'
  rw [clearClaim] at hr'
  dsimp only at hr'
  rcases List.mem_map.mp hr' with ⟨r, hr, rfl⟩
  by_cases hru : r.username = name
  · rw [if_pos (by simp [hru])]
    exact Or.inr rfl
  · rw [if_neg (by simp [hru])]
    exact Or.inl ⟨hr, hru⟩

theorem sessionInvariant_erase_unclaimed (s : ServerState) (sid : String)
    (hinv : SessionInvariant s)
    (hnoclaim : ∀ r ∈ s.users, r.session_id ≠ some sid) :
    SessionInvariant { s with store := storeErase s.store sid } := by
  obtain ⟨hlive, hinj, hnd, hsnd⟩ := hinv
  refine ⟨?_, hinj, hnd, nodup_map_fst_storeErase hsnd sid⟩
  intro r hr x hx
  have hl := hlive r hr x hx
  refine ⟨hl.1, ?_⟩
  have hxs : x ≠ sid := fun he => hnoclaim r hr (he ▸ hx)
  rw [show ({ s with store := storeErase s.store sid } : ServerState).store
        = storeErase s.store sid from rfl, storeGet_erase_other _ _ _ hxs]
  exact hl.2

theorem sessionInvariant_clear_then_erase (s : ServerState) (uname sid : String)
    (hinv : SessionInvariant s)
    (hnoclaim : ∀ r ∈ s.users, r.username ≠ uname → r.session_id ≠ some sid) :
    SessionInvariant
      { clearClaim s uname with store := storeErase (clearClaim s uname).store sid } := by
  obtain ⟨hlive, hinj, hnd, hsnd⟩ := hinv
  have hchar := clearClaim_users_char s uname
  refine ⟨?_, ?_, ?_, nodup_map_fst_storeErase hsnd sid⟩
  · intro r hr x hx
    rcases hchar r hr with ⟨hm, hru⟩ | hnone
    · have hl := hlive r hm x hx
      refine ⟨hl.1, ?_⟩
      have hxs : x ≠ sid := fun he => hnoclaim r hm hru (he ▸ hx)
      rw [show ({ clearClaim s uname with
            store := storeErase (clearClaim s uname).store sid } : ServerState).store
          = storeErase s.store sid from rfl, storeGet_erase_other _ _ _ hxs]
      exact hl.2
    · rw [hnone] at hx
      cases hx
  · intro r hr q hq x hx hqx
    rcases hchar r hr with ⟨hm1, _⟩ | hnone
    · rcases hchar q hq with ⟨hm2, _⟩ | hnone
      · exact hinj r hm1 q hm2 x hx hqx
      · rw [hnone] at hqx; cases hqx
    · rw [hnone] at hx; cases hx
  · show ((clearClaim s uname).users.map (fun r => r.username)).Nodup
    rw [show (clearClaim s uname).users = s.users.map (fun r =>
          if r.username == uname then { r with session_id := none } else r) from rfl]
    rw [map_username_map_update _ _ (fun r => by by_cases h : r.username == uname <;> simp [h])]
    exact hnd

theorem login_claim_won (s : ServerState) (req : Request) (freshSid : String) (user : UserRow)
    (hEv2 : getUser (loginRegen (loginEvict s user) req) user.username
      = some { user with session_id := none }) :
    (conditionalClaim (loginRegen (loginEvict s user) req) user.username freshSid).2 ≠ 0 := by
  rw [conditionalClaim_changes_ne_zero]
  exact ⟨{ user with session_id := none }, getUser_mem hEv2, by simp, rfl⟩

theorem sessionInvariant_login_pres (s : ServerState) (req : Request)
    (uA uB pw : Option String) (freshSid uf : String) (user : UserRow)
    (hinv : SessionInvariant s)
    (huf : jsOrStr uA uB = some uf) (hne : uf ≠ "")
    (hauth : autenticar s uf pw = some user)
    (hreqsid : ∀ r ∈ s.users, r.session_id = some req.sessionID → r.username = user.username)
    (hfresh : ∀ r ∈ s.users, r.session_id ≠ some freshSid)
    (hfne : freshSid ≠ "") :
    SessionInvariant (login s req uA uB pw freshSid).2.1 := by
  obtain ⟨hlive, hinj, hnd, hsnd⟩ := hinv
  have hg : getUser s uf = some user := autenticar_getUser hauth
  have huname : user.username = uf := getUser_username hg
  have husermem : user ∈ s.users := getUser_mem hg
  have hwf : user.session_id = none ∨ truthyStr user.session_id = true := by
    cases hc : user.session_id with
    | none => exact Or.inl rfl
    | some x =>
      right
      have := (hlive user husermem x hc).1
      simp [truthyStr, this]
  have hchar := login_users_char s req uA uB pw freshSid uf user huf hne hauth hwf hnd
  have hls := login_success s req uA uB pw freshSid uf user huf hne hauth hwf
  have hEvictOther : ∀ x, (∀ r ∈ s.users, r.username ≠ uf → r.session_id ≠ some x) → False ∨ True := fun _ _ => Or.inr trivial
  have hEvStore : ∀ x, x ≠ "" → (∀ q ∈ s.users, q.session_id = some x → q.username ≠ uf) →
      (storeGet s.store x).isSome = true → (storeGet (loginEvict s user).store x).isSome = true := by
    intro x hxne hqx hsome
    unfold loginEvict
    by_cases htr : truthyStr user.session_id = true
    · rw [if_pos htr]
      obtain ⟨old, hold⟩ : ∃ old, user.session_id = some old := by
        cases hc : user.session_id with
        | none => rw [hc] at htr; cases htr
        | some o => exact ⟨o, rfl⟩
      have hxo : x ≠ old := by
        intro he
        subst he
        exact hqx user husermem hold huname
      rw [show (clearClaim { s with store := storeErase s.store (user.session_id.getD "") }
            user.username).store = storeErase s.store (user.session_id.getD "") from rfl]
      rw [hold]
      rw [show (some old).getD "" = old from rfl]
      rw [storeGet_erase_other _ _ _ hxo]
      exact hsome
    · rw [if_neg htr]
      exact hsome
  refine ⟨?_, ?_, ?_, ?_⟩
  · -- ClaimsLive
    intro r' hr' x hx
    rcases hchar r' hr' with ⟨hmem, hruf⟩ | heq
    · have hl := hlive r' hmem x hx
      refine ⟨hl.1, ?_⟩
      have hxf : x ≠ freshSid := fun he => hfresh r' hmem (he ▸ hx)
      have hxr : x ≠ req.sessionID := fun he => hruf (by
        rw [hreqsid r' hmem (he ▸ hx), huname])
      rw [hls.2.2.2.2 x hxf, if_neg hxr]
      refine hEvStore x hl.1 ?_ hl.2
      intro q hq hqx hquf
      have : r'.username = q.username := hinj r' hmem q hq x hx hqx
      exact hruf (this.trans hquf)
    · rw [heq] at hx
      injection hx with hx
      refine ⟨by rw [← hx]; exact hfne, ?_⟩
      rw [← hx]
      rw [hls.2.2.1]
      rfl
  · -- ClaimsInj
    intro r' hr' q' hq' x hx hqx
    rcases hchar r' hr' with ⟨hm1, hu1⟩ | he1
    · rcases hchar q' hq' with ⟨hm2, hu2⟩ | he2
      · exact hinj r' hm1 q' hm2 x hx hqx
      · rw [he2] at hqx
        injection hqx with hqx
        exact absurd (hqx ▸ hx) (hfresh r' hm1)
    · rcases hchar q' hq' with ⟨hm2, hu2⟩ | he2
      · rw [he1] at hx
        injection hx with hx
        exact absurd (hx ▸ hqx) (hfresh q' hm2)
      · rw [he1, he2]
  · -- UsersNodup
    have hEv2 : getUser (loginRegen (loginEvict s user) req) user.username
        = some { user with session_id := none } :=
      getUser_loginEvict s user (by rw [huname]; exact hg) hwf
    show ((login s req uA uB pw freshSid).2.1.users.map (fun r => r.username)).Nodup
    rw [login_eq_claim_step s req uA uB pw freshSid uf user huf hne hauth,
        if_neg (login_claim_won s req freshSid user hEv2)]
    dsimp only
    rw [show (conditionalClaim (loginRegen (loginEvict s user) req) user.username freshSid).1.users
          = (loginRegen (loginEvict s user) req).users.map (fun r =>
              if r.username == user.username && r.session_id == none then
                { r with session_id := some freshSid } else r) from rfl]
    rw [map_username_map_update _ _ (fun r => by
      by_cases h : r.username == user.username && r.session_id == none <;> simp [h])]
    rw [show (loginRegen (loginEvict s user) req).users = (loginEvict s user).users from rfl]
    unfold loginEvict
    by_cases htr : truthyStr user.session_id = true
    · rw [if_pos htr]
      rw [show (clearClaim { s with store := storeErase s.store (user.session_id.getD "") }
            user.username).users = s.users.map (fun r =>
              if r.username == user.username then { r with session_id := none } else r) from rfl]
      rw [map_username_map_update _ _ (fun r => by
        by_cases h : r.username == user.username <;> simp [h])]
      exact hnd
    · rw [if_neg htr]
      exact hnd
  · -- StoreNodup
    have hEv2 : getUser (loginRegen (loginEvict s user) req) user.username
        = some { user with session_id := none } :=
      getUser_loginEvict s user (by rw [huname]; exact hg) hwf
    show ((login s req uA uB pw freshSid).2.1.store.map (fun p => p.1)).Nodup
    rw [login_eq_claim_step s req uA uB pw freshSid uf user huf hne hauth,
        if_neg (login_claim_won s req freshSid user hEv2)]
    dsimp only
    apply nodup_map_fst_storeSet
    rw [show (conditionalClaim (loginRegen (loginEvict s user) req) user.username freshSid).1.store
          = storeErase (loginEvict s user).store req.sessionID from rfl]
    apply nodup_map_fst_storeErase
    unfold loginEvict
    by_cases htr : truthyStr user.session_id = true
    · rw [if_pos htr]
      exact nodup_map_fst_storeErase hsnd _
    · rw [if_neg htr]
      exact hsnd

theorem sessionInvariant_guard_pres (s : ServerState) (req : Request)
    (hinv : SessionInvariant s)
    (hreqsid : ∀ r ∈ s.users, r.session_id = some req.sessionID →
      r.username ≠ "" ∧ req.usuario = some r.username) :
    SessionInvariant (requiereSesionUnica s req).2 := by
  cases hu : req.usuario with
  | none => rw [guard_unauth_none s req hu]; exact hinv
  | some uname =>
    by_cases hne : uname = ""
    · rw [guard_unauth_empty s req (by rw [hu, hne])]; exact hinv
    · cases hg : getUser s uname with
      | none => rw [guard_unauth_nouser s req uname hu hne hg]; exact hinv
      | some row =>
        have hnoclaim_of : (∀ x, row.session_id = some x → x ≠ req.sessionID) →
            ∀ r ∈ s.users, r.session_id ≠ some req.sessionID := by
          intro hrow r hr hrx
          obtain ⟨hne', husr⟩ := hreqsid r hr hrx
          rw [hu] at husr
          injection husr with husr
          have hreq : r = row := by
            have h1 := getUser_of_mem_nodup hinv.2.2.1 hr husr.symm
            rw [hg] at h1
            injection h1 with h2
            exact h2.symm
          subst hreq
          exact hrow req.sessionID hrx rfl
        cases hsid : row.session_id with
        | none =>
          rw [guard_invalida s req uname row hu hne hg hsid]
          exact sessionInvariant_erase_unclaimed s req.sessionID hinv
            (hnoclaim_of (fun x hx => by rw [hsid] at hx; cases hx))
        | some rsid =>
          by_cases hrne : rsid = ""
          · exact absurd hrne ((hinv.1 row (getUser_mem hg) rsid hsid).1)
          · by_cases hdiff : rsid ≠ req.sessionID
            · rw [guard_otra s req uname row rsid hu hne hg hsid hrne hdiff]
              exact sessionInvariant_erase_unclaimed s req.sessionID hinv
                (hnoclaim_of (fun x hx => by
                  rw [hsid] at hx
                  injection hx with hx
                  rw [← hx]
                  exact hdiff))
            · push_neg at hdiff
              cases hst : storeGet s.store req.sessionID with
              | none =>
                rw [guard_expirada s req uname row hu hne hg (by rw [hsid, hdiff])
                  (by rw [← hdiff]; exact hrne) hst]
                apply sessionInvariant_clear_then_erase s uname req.sessionID hinv
                intro r hr hru hrx
                obtain ⟨_, husr⟩ := hreqsid r hr hrx
                rw [hu] at husr
                injection husr with husr
                exact hru husr.symm
              | some rec =>
                rw [guard_allowed s req uname row rec hu hne hg (by rw [hsid, hdiff])
                  (by rw [← hdiff]; exact hrne) hst]
                exact hinv

theorem sessionInvariant_logout_pres (s : ServerState) (req : Request)
    (hinv : SessionInvariant s)
    (hreqsid : ∀ r ∈ s.users, r.session_id = some req.sessionID →
      r.username ≠ "" ∧ req.usuario = some r.username) :
    SessionInvariant (logout s req).1 := by
  unfold logout
  cases hu : req.usuario with
  | none =>
    dsimp only
    exact sessionInvariant_erase_unclaimed s req.sessionID hinv (fun r hr hrx => by
      have := (hreqsid r hr hrx).2
      rw [hu] at this
      cases this)
  | some uname =>
    dsimp only
    by_cases hne : uname = ""
    · rw [if_pos hne]
      exact sessionInvariant_erase_unclaimed s req.sessionID hinv (fun r hr hrx => by
        obtain ⟨hn, husr⟩ := hreqsid r hr hrx
        rw [hu] at husr
        injection husr with husr
        exact hn (by rw [← husr, hne]))
    · rw [if_neg hne]
      have hgeq : ∀ st : List (String × SessRec),
          getUser { s with store := st } uname = getUser s uname := fun _ => rfl
      cases hg : getUser s uname with
      | none =>
        rw [hgeq, hg]
        exact sessionInvariant_erase_unclaimed s req.sessionID hinv (fun r hr hrx => by
          obtain ⟨hn, husr⟩ := hreqsid r hr hrx
          rw [hu] at husr
          injection husr with husr
          have h1 := getUser_of_mem_nodup hinv.2.2.1 hr husr.symm
          rw [hg] at h1
          cases h1)
      | some row =>
        rw [hgeq, hg]
        dsimp only
        by_cases hb : row.session_id == some req.sessionID
        · rw [if_pos hb]
          exact sessionInvariant_clear_then_erase s uname req.sessionID hinv (fun r hr hru hrx => by
            obtain ⟨hn, husr⟩ := hreqsid r hr hrx
            rw [hu] at husr
            injection husr with husr
            exact hru husr.symm)
        · rw [if_neg hb]
          exact sessionInvariant_erase_unclaimed s req.sessionID hinv (fun r hr hrx => by
            obtain ⟨hn, husr⟩ := hreqsid r hr hrx
            rw [hu] at husr
            injection husr with husr
            have hreq : r = row := by
              have h1 := getUser_of_mem_nodup hinv.2.2.1 hr husr.symm
              rw [hg] at h1
              injection h1 with h2
              exact h2.symm
            subst hreq
            rw [hrx] at hb
            simp at hb)

/-- C3 amended: login, guard-check and logout each preserve the session-claim
invariant (every account's claimed_session_id is null or identifies exactly one
live store entry, with no two accounts sharing a claim) provided the incoming
request's session identifier is not the claimed session of a different account
and the freshly issued identifier is unclaimed.  Without the first proviso the
invariant fails: a login arriving on a session claimed by another account
destroys that entry during `regenerate` (see the counterexample). -/
theorem claim3_invariant_preservation :
    (∀ (s : ServerState) (req : Request) (uA uB pw : Option String) (freshSid uf : String)
        (user : UserRow),
      SessionInvariant s →
      jsOrStr uA uB = some uf → uf ≠ "" →
      autenticar s uf pw = some user →
      (∀ r ∈ s.users, r.session_id = some req.sessionID → r.username = user.username) →
      (∀ r ∈ s.users, r.session_id ≠ some freshSid) →
      freshSid ≠ "" →
      SessionInvariant (login s req uA uB pw freshSid).2.1) ∧
    (∀ (s : ServerState) (req : Request),
      SessionInvariant s →
      (∀ r ∈ s.users, r.session_id = some req.sessionID →
        r.username ≠ "" ∧ req.usuario = some r.username) →
      SessionInvariant (requiereSesionUnica s req).2) ∧
    (∀ (s : ServerState) (req : Request),
      SessionInvariant s →
      (∀ r ∈ s.users, r.session_id = some req.sessionID →
        r.username ≠ "" ∧ req.usuario = some r.username) →
      SessionInvariant (logout s req).1) :=
  ⟨fun s req uA uB pw freshSid uf user hinv huf hne hauth hreqsid hfresh hfne =>
      sessionInvariant_login_pres s req uA uB pw freshSid uf user hinv huf hne hauth
        hreqsid hfresh hfne,
   fun s req hinv hreqsid => sessionInvariant_guard_pres s req hinv hreqsid,
   fun s req hinv hreqsid => sessionInvariant_logout_pres s req hinv hreqsid⟩

/-- C3 amended witness: the invariant survives a concrete login, guard-check and
logout whose requests carry no foreign claimed identifier. -/
theorem claim3_invariant_preservation_witness :
    SessionInvariant (login ⟨[⟨"u", some "p", some "A"⟩], [("A", ⟨some "u"⟩)]⟩ ⟨"A", some "u"⟩
      (some "u") none (some "p") "B").2.1 ∧
    SessionInvariant (requiereSesionUnica ⟨[⟨"u", some "p", some "A"⟩], [("A", ⟨some "u"⟩)]⟩
      ⟨"A", some "u"⟩).2 ∧
    SessionInvariant (logout ⟨[⟨"u", some "p", some "A"⟩], [("A", ⟨some "u"⟩)]⟩ ⟨"A", some "u"⟩).1 := by
  refine ⟨?_, ?_, ?_⟩
  · exact claim3_invariant_preservation.1 ⟨[⟨"u", some "p", some "A"⟩], [("A", ⟨some "u"⟩)]⟩
      ⟨"A", some "u"⟩ (some "u") none (some "p") "B" "u" ⟨"u", some "p", some "A"⟩
      (by decide) (by decide) (by decide) (by decide) (by decide) (by decide) (by decide)
  · exact claim3_invariant_preservation.2.1 ⟨[⟨"u", some "p", some "A"⟩], [("A", ⟨some "u"⟩)]⟩
      ⟨"A", some "u"⟩ (by decide) (by decide)
  · exact claim3_invariant_preservation.2.2 ⟨[⟨"u", some "p", some "A"⟩], [("A", ⟨some "u"⟩)]⟩
      ⟨"A", some "u"⟩ (by decide) (by decide)

/-! ### Concurrency model for two racing logins (C2)

Two login requests for the same account run concurrently.  better-sqlite3
calls are synchronous, so the atomic blocks of the handler are separated at
its `await` points: the authentication read (with the truthiness check on the
row it returned), the store destroy of the old session, the unconditional
claim clear, the conditional claim update (with the in-memory attach of the
username), and the final session save that persists the regenerated session.
A schedule interleaves the steps of the two requests arbitrarily. -/

/-- Program counter of an in-flight login request, one value per atomic block. -/
inductive LPC
  | authStep
  | destroyStep
  | clearStep
  | claimStep
  | saveStep
  | doneStep
deriving Repr, DecidableEq

/-- An in-flight login request: its program counter, the session_id column it
read during authentication, and its result once finished. -/
structure LThread where
  pc : LPC
  readSid : Option String
  result : Option LoginResult
deriving Repr, DecidableEq

def initThread : LThread := ⟨.authStep, none, none⟩

/-- One atomic step of an in-flight login for account `u`, submitted password
`pw`, regenerated identifier `n`, mirroring the body of the `/login` handler. -/
def lstep (u n : String) (pw : Option String) (s : ServerState) (t : LThread) :
    ServerState × LThread :=
  match t.pc with
  | .authStep =>
    match autenticar s u pw with
    | none => (s, { t with pc := .doneStep, result := some .credenciales })
    | some row =>
      if truthyStr row.session_id then
        (s, { t with pc := .destroyStep, readSid := row.session_id })
      else
        (s, { t with pc := .claimStep, readSid := row.session_id })
  | .destroyStep =>
    match t.readSid with
    | some old => ({ s with store := storeErase s.store old }, { t with pc := .clearStep })
    | none => (s, { t with pc := .clearStep })
  | .clearStep => (clearClaim s u, { t with pc := .claimStep })
  | .claimStep =>
    if (conditionalClaim s u n).2 = 0 then
      ((conditionalClaim s u n).1, { t with pc := .doneStep, result := some .sesionActiva })
    else
      ((conditionalClaim s u n).1, { t with pc := .saveStep, result := some .inicio })
  | .saveStep => ({ s with store := storeSet s.store n ⟨some u⟩ }, { t with pc := .doneStep })
  | .doneStep => (s, t)

/-- Joint configuration: shared durable state plus the two in-flight requests. -/
structure RaceConfig where
  st : ServerState
  ta : LThread
  tb : LThread
deriving Repr, DecidableEq

/-- Scheduler step: `true` runs one atomic block of request A, `false` of B. -/
def raceStep (u na nb : String) (pwa pwb : Option String) (c : RaceConfig) (side : Bool) :
    RaceConfig :=
  if side then ⟨(lstep u na pwa c.st c.ta).1, (lstep u na pwa c.st c.ta).2, c.tb⟩
  else ⟨(lstep u nb pwb c.st c.tb).1, c.ta, (lstep u nb pwb c.st c.tb).2⟩

/-- Run a whole schedule. -/
def raceRun (u na nb : String) (pwa pwb : Option String) (c : RaceConfig)
    (sched : List Bool) : RaceConfig :=
  sched.foldl (raceStep u na nb pwa pwb) c

def pastClaim (t : LThread) : Prop := t.pc = .saveStep ∨ t.pc = .doneStep

/-- A thread that authenticated while a foreign (pre-existing) claim was in
place and has not yet cleared it. -/
def foreignLow (t : LThread) (x : String) : Prop :=
  t.pc = .authStep ∨ ((t.pc = .destroyStep ∨ t.pc = .clearStep) ∧ t.readSid = some x)

/-- One thread's share of the race invariant (`t` owns identifier `n`, the
other thread is `o`). -/
structure SideInv (u n : String) (t o : LThread) (c : Option String)
    (store : List (String × SessRec)) : Prop where
  claimOwn : c = some n → pastClaim t ∧ t.result = some .inicio
  readOwn : o.readSid = some n → pastClaim t ∧ t.result = some .inicio
  readClear : o.readSid = some n → (o.pc = .claimStep ∨ pastClaim o) → c ≠ some n
  doneStore : t.pc = .doneStep ∧ t.result = some .inicio →
    storeGet store n = some ⟨some u⟩ ∨
      (o.readSid = some n ∧ o.pc ≠ .authStep ∧ o.pc ≠ .destroyStep)
  saveRes : t.pc = .saveStep → t.result = some .inicio
  doneRes : t.pc = .doneStep → t.result = some .sesionActiva ∨ t.result = some .inicio
  ownRead : t.readSid ≠ some n

/-- The race invariant at a fixed value `c` of the account's session_id column. -/
structure RaceInvC (u na nb : String) (pw0 : Option String) (c : Option String)
    (cfg : RaceConfig) : Prop where
  husers : cfg.st.users = [⟨u, pw0, c⟩]
  hcne : c ≠ some ""
  hforeign : ∀ x, c = some x → x ≠ na → x ≠ nb →
    x ≠ "" ∧ foreignLow cfg.ta x ∧ foreignLow cfg.tb x
  hpast : pastClaim cfg.ta → pastClaim cfg.tb → c ≠ none
  hsideA : SideInv u na cfg.ta cfg.tb c cfg.st.store
  hsideB : SideInv u nb cfg.tb cfg.ta c cfg.st.store

/-- The race invariant. -/
def raceInv (u na nb : String) (pw0 : Option String) (cfg : RaceConfig) : Prop :=
  ∃ c, RaceInvC u na nb pw0 c cfg

theorem raceInvC_swap {u na nb : String} {pw0 c : Option String}
    {st : ServerState} {ta tb : LThread}
    (h : RaceInvC u na nb pw0 c ⟨st, ta, tb⟩) : RaceInvC u nb na pw0 c ⟨st, tb, ta⟩ := by
  obtain ⟨husers, hcne, hforeign, hpast, hsA, hsB⟩ := h
  exact ⟨husers, hcne,
    fun x hx h1 h2 => ⟨(hforeign x hx h2 h1).1, (hforeign x hx h2 h1).2.2,
      (hforeign x hx h2 h1).2.1⟩,
    fun h1 h2 => hpast h2 h1, hsB, hsA⟩

theorem getUser_singleton (u : String) (pw0 c : Option String) (st : List (String × SessRec)) :
    getUser ⟨[⟨u, pw0, c⟩], st⟩ u = some ⟨u, pw0, c⟩ := by
  unfold getUser
  rw [List.find?_cons_of_pos _ (by simp)]

theorem autenticar_singleton (u : String) (pw0 pw c : Option String)
    (st : List (String × SessRec))
    (hp : truthyStr pw0 = true → truthyStr pw = true → pw0 = pw) :
    autenticar ⟨[⟨u, pw0, c⟩], st⟩ u pw = some ⟨u, pw0, c⟩ := by
  unfold autenticar
  rw [getUser_singleton]
  dsimp only
  rw [if_neg (by
    simp only [Bool.and_eq_true, bne_iff_ne, ne_eq]
    rintro ⟨⟨h1, h2⟩, h3⟩
    exact h3 (hp h1 h2))]

theorem clearClaim_singleton (u : String) (pw0 c : Option String)
    (st : List (String × SessRec)) :
    clearClaim ⟨[⟨u, pw0, c⟩], st⟩ u = ⟨[⟨u, pw0, none⟩], st⟩ := by
  unfold clearClaim
  simp

theorem conditionalClaim_singleton (u : String) (pw0 c : Option String)
    (st : List (String × SessRec)) (n : String) :
    conditionalClaim ⟨[⟨u, pw0, c⟩], st⟩ u n =
      (⟨[⟨u, pw0, if c = none then some n else c⟩], st⟩, if c = none then 1 else 0) := by
  unfold conditionalClaim
  cases c with
  | none => simp
  | some x => simp


theorem raceInv_stepA (u na nb : String) (pw0 pwa : Option String)
    (hna : na ≠ "") (hnb : nb ≠ "") (hnanb : na ≠ nb)
    (hpa : truthyStr pw0 = true → truthyStr pwa = true → pw0 = pwa)
    (st : ServerState) (ta tb : LThread)
    (hinv : raceInv u na nb pw0 ⟨st, ta, tb⟩) :
    raceInv u na nb pw0 ⟨(lstep u na pwa st ta).1, (lstep u na pwa st ta).2, tb⟩ := by
  obtain ⟨c, hc⟩ := hinv
  obtain ⟨husers, hcne, hforeign, hpast, hsA, hsB⟩ := hc
  obtain ⟨us, store⟩ := st
  dsimp only at husers hforeign hpast hsA hsB ⊢
  subst husers
  obtain ⟨A1, A2, A3, A4, A5, A6, A7⟩ := hsA
  obtain ⟨B1, B2, B3, B4, B5, B6, B7⟩ := hsB
  obtain ⟨tapc, tard, tares⟩ := ta
  dsimp only at A1 A2 A3 A4 A5 A6 A7 B1 B2 B3 B4 B5 B6 B7 hforeign hpast ⊢
  cases tapc with
  | authStep =>
    simp only [lstep, autenticar_singleton u pw0 pwa c store hpa]
    by_cases htr : truthyStr c = true
    · rw [if_pos htr]
      refine ⟨c, rfl, hcne, ?_, ?_, ⟨?_, ?_, ?_, ?_, ?_, ?_, ?_⟩, ⟨?_, ?_, ?_, ?_, ?_, ?_, ?_⟩⟩
      · intro x hx h1 h2
        obtain ⟨hx1, _, hx3⟩ := hforeign x hx h1 h2
        exact ⟨hx1, Or.inr ⟨Or.inl rfl, by rw [hx]⟩, hx3⟩
      · intro h _
        simp [pastClaim] at h
      · intro hx
        have := (A1 hx).1
        simp [pastClaim] at this
      · intro hx
        have := (A2 hx).1
        simp [pastClaim] at this
      · exact A3
      · rintro ⟨h, _⟩
        simp at h
      · intro h
        simp at h
      · intro h
        simp at h
      · intro hx
        dsimp only at hx
        have := (A1 hx).1
        simp [pastClaim] at this
      · exact B1
      · intro hx
        dsimp only at hx
        exact B1 hx
      · intro hx hcond
        rcases hcond with h | h
        · simp at h
        · simp [pastClaim] at h
      · intro h
        rcases B4 h with h' | ⟨_, hpc1, _⟩
        · exact Or.inl h'
        · exact absurd rfl hpc1
      · exact B5
      · exact B6
      · exact B7
    · rw [if_neg htr]
      refine ⟨c, rfl, hcne, ?_, ?_, ⟨?_, ?_, ?_, ?_, ?_, ?_, ?_⟩, ⟨?_, ?_, ?_, ?_, ?_, ?_, ?_⟩⟩
      · intro x hx h1 h2
        exact absurd (by rw [hx]; simp [truthyStr, (hforeign x hx h1 h2).1]) htr
      · intro h _
        simp [pastClaim] at h
      · intro hx
        have := (A1 hx).1
        simp [pastClaim] at this
      · intro hx
        have := (A2 hx).1
        simp [pastClaim] at this
      · exact A3
      · rintro ⟨h, _⟩
        simp at h
      · intro h
        simp at h
      · intro h
        simp at h
      · intro hx
        dsimp only at hx
        have := (A1 hx).1
        simp [pastClaim] at this
      · exact B1
      · intro hx
        dsimp only at hx
        exact B1 hx
      · intro hx _
        dsimp only at hx
        exact absurd (by rw [hx]; simp [truthyStr, hnb]) htr
      · intro h
        rcases B4 h with h' | ⟨_, hpc1, _⟩
        · exact Or.inl h'
        · exact absurd rfl hpc1
      · exact B5
      · exact B6
      · exact B7
  | destroyStep =>
    simp only [lstep]
    cases tard with
    | none =>
      dsimp only
      refine ⟨c, rfl, hcne, ?_, ?_, ⟨?_, ?_, ?_, ?_, ?_, ?_, ?_⟩, ⟨?_, ?_, ?_, ?_, ?_, ?_, ?_⟩⟩
      · intro x hx h1 h2
        rcases (hforeign x hx h1 h2).2.1 with h | ⟨_, hr⟩
        · simp at h
        · simp at hr
      · intro h _
        simp [pastClaim] at h
      · intro hx
        have := (A1 hx).1
        simp [pastClaim] at this
      · intro hx
        have := (A2 hx).1
        simp [pastClaim] at this
      · exact A3
      · rintro ⟨h, _⟩
        simp at h
      · intro h
        simp at h
      · intro h
        simp at h
      · intro h
        simp at h
      · exact B1
      · intro hx
        simp at hx
      · intro hx
        simp at hx
      · intro h
        rcases B4 h with h' | ⟨hr, _, _⟩
        · exact Or.inl h'
        · simp at hr
      · exact B5
      · exact B6
      · exact B7
    | some old =>
      dsimp only
      refine ⟨c, rfl, hcne, ?_, ?_, ⟨?_, ?_, ?_, ?_, ?_, ?_, ?_⟩, ⟨?_, ?_, ?_, ?_, ?_, ?_, ?_⟩⟩
      · intro x hx h1 h2
        obtain ⟨hx1, hx2, hx3⟩ := hforeign x hx h1 h2
        rcases hx2 with h | ⟨_, hr⟩
        · simp at h
        · exact ⟨hx1, Or.inr ⟨Or.inr rfl, hr⟩, hx3⟩
      · intro h _
        simp [pastClaim] at h
      · intro hx
        have := (A1 hx).1
        simp [pastClaim] at this
      · intro hx
        have := (A2 hx).1
        simp [pastClaim] at this
      · exact A3
      · rintro ⟨h, _⟩
        simp at h
      · intro h
        simp at h
      · intro h
        simp at h
      · exact A7
      · exact B1
      · exact B2
      · intro hx hcond
        rcases hcond with h | h
        · simp at h
        · simp [pastClaim] at h
      · intro h
        by_cases hob : old = nb
        · exact Or.inr ⟨by rw [hob], by simp, by simp⟩
        · rcases B4 h with h' | ⟨hr, _, _⟩
          · rw [storeGet_erase_other store old nb (fun hh => hob hh.symm)]
            exact Or.inl h'
          · injection hr with hr
            exact absurd hr hob
      · exact B5
      · exact B6
      · exact B7
  | clearStep =>
    simp only [lstep, clearClaim_singleton]
    refine ⟨none, rfl, (fun h => nomatch h), ?_, ?_, ⟨?_, ?_, ?_, ?_, ?_, ?_, ?_⟩,
      ⟨?_, ?_, ?_, ?_, ?_, ?_, ?_⟩⟩
    · intro x hx
      cases hx
    · intro h _
      simp [pastClaim] at h
    · intro hx
      cases hx
    · intro hx
      have := (A2 hx).1
      simp [pastClaim] at this
    · intro _ _ h
      cases h
    · rintro ⟨h, _⟩
      simp at h
    · intro h
      simp at h
    · intro h
      simp at h
    · exact A7
    · intro h
      cases h
    · exact B2
    · intro _ _ h
      cases h
    · intro h
      rcases B4 h with h' | ⟨hr, _, _⟩
      · exact Or.inl h'
      · exact Or.inr ⟨hr, by simp, by simp⟩
    · exact B5
    · exact B6
    · exact B7
  | claimStep =>
    simp only [lstep, conditionalClaim_singleton]
    by_cases hcn : c = none
    · rw [if_pos hcn, if_pos hcn, if_neg one_ne_zero]
      refine ⟨some na, rfl, (fun h => hna (Option.some.inj h)), ?_, ?_,
        ⟨?_, ?_, ?_, ?_, ?_, ?_, ?_⟩, ⟨?_, ?_, ?_, ?_, ?_, ?_, ?_⟩⟩
      · intro x hx h1 _
        exact absurd (Option.some.inj hx).symm h1
      · intro _ _ h
        cases h
      · intro _
        exact ⟨Or.inl rfl, rfl⟩
      · intro _
        exact ⟨Or.inl rfl, rfl⟩
      · intro hx _
        have := (A2 hx).1
        simp [pastClaim] at this
      · rintro ⟨h, _⟩
        simp at h
      · intro _
        rfl
      · intro h
        simp at h
      · exact A7
      · intro h
        exact absurd (Option.some.inj h) hnanb
      · exact B2
      · intro _ _ h
        exact hnanb (Option.some.inj h)
      · intro h
        rcases B4 h with h' | ⟨hr, _, _⟩
        · exact Or.inl h'
        · exact Or.inr ⟨hr, by simp, by simp⟩
      · exact B5
      · exact B6
      · exact B7
    · have hcnb : c = some nb := by
        cases hcx : c with
        | none => exact absurd hcx hcn
        | some x =>
          by_cases hxna : x = na
          · subst hxna
            have := (A1 hcx).1
            simp [pastClaim] at this
          · by_cases hxnb : x = nb
            · rw [hxnb]
            · have := (hforeign x hcx hxna hxnb).2.1
              rcases this with h | ⟨h, _⟩
              · cases h
              · rcases h with h | h <;> cases h
      rw [if_neg hcn, if_neg hcn, if_pos rfl]
      refine ⟨c, rfl, hcne, ?_, ?_, ⟨?_, ?_, ?_, ?_, ?_, ?_, ?_⟩, ⟨?_, ?_, ?_, ?_, ?_, ?_, ?_⟩⟩
      · intro x' hx' h1 h2
        rw [hcnb] at hx'
        exact absurd (Option.some.inj hx').symm h2
      · intro _ _
        exact hcn
      · intro hx
        rw [hcnb] at hx
        exact absurd (Option.some.inj hx).symm hnanb
      · intro hx
        have := (A2 hx).1
        simp [pastClaim] at this
      · intro _ _
        rw [hcnb]
        intro h
        exact hnanb (Option.some.inj h).symm
      · rintro ⟨_, h⟩
        simp at h
      · intro h
        simp at h
      · intro _
        exact Or.inl rfl
      · exact A7
      · exact B1
      · exact B2
      · intro hx _
        exact B3 hx (Or.inl rfl)
      · intro h
        rcases B4 h with h' | ⟨hr, _, _⟩
        · exact Or.inl h'
        · exact absurd hcnb (B3 hr (Or.inl rfl))
      · exact B5
      · exact B6
      · exact B7
  | saveStep =>
    simp only [lstep]
    have hres : tares = some .inicio := A5 rfl
    refine ⟨c, rfl, hcne, ?_, ?_, ⟨?_, ?_, ?_, ?_, ?_, ?_, ?_⟩, ⟨?_, ?_, ?_, ?_, ?_, ?_, ?_⟩⟩
    · intro x hx h1 h2
      rcases (hforeign x hx h1 h2).2.1 with h | ⟨h, _⟩
      · cases h
      · rcases h with h | h <;> cases h
    · intro _ h2
      exact hpast (Or.inl rfl) h2
    · intro _
      exact ⟨Or.inr rfl, hres⟩
    · intro _
      exact ⟨Or.inr rfl, hres⟩
    · exact A3
    · intro _
      left
      rw [storeGet_set, if_pos rfl]
    · intro h
      simp at h
    · intro _
      exact Or.inr hres
    · exact A7
    · exact B1
    · exact B2
    · intro hx _
      exact B3 hx (Or.inr (Or.inl rfl))
    · intro h
      rcases B4 h with h' | ⟨hr, _, _⟩
      · rw [storeGet_set, if_neg (fun hh => hnanb hh.symm)]
        exact Or.inl h'
      · exact Or.inr ⟨hr, by simp, by simp⟩
    · exact B5
    · exact B6
    · exact B7
  | doneStep =>
    simp only [lstep]
    exact ⟨c, rfl, hcne, hforeign, hpast, ⟨A1, A2, A3, A4, A5, A6, A7⟩,
      ⟨B1, B2, B3, B4, B5, B6, B7⟩⟩

theorem raceInv_stepB (u na nb : String) (pw0 pwb : Option String)
    (hna : na ≠ "") (hnb : nb ≠ "") (hnanb : na ≠ nb)
    (hpb : truthyStr pw0 = true → truthyStr pwb = true → pw0 = pwb)
    (st : ServerState) (ta tb : LThread)
    (hinv : raceInv u na nb pw0 ⟨st, ta, tb⟩) :
    raceInv u na nb pw0 ⟨(lstep u nb pwb st tb).1, ta, (lstep u nb pwb st tb).2⟩ := by
  obtain ⟨c, hc⟩ := hinv
  have hswap : raceInv u nb na pw0 ⟨st, tb, ta⟩ := ⟨c, raceInvC_swap hc⟩
  obtain ⟨c', hc'⟩ := raceInv_stepA u nb na pw0 pwb hnb hna (fun h => hnanb h.symm) hpb st tb ta
    hswap
  exact ⟨c', raceInvC_swap hc'⟩

theorem raceInv_run (u na nb : String) (pw0 pwa pwb : Option String)
    (hna : na ≠ "") (hnb : nb ≠ "") (hnanb : na ≠ nb)
    (hpa : truthyStr pw0 = true → truthyStr pwa = true → pw0 = pwa)
    (hpb : truthyStr pw0 = true → truthyStr pwb = true → pw0 = pwb)
    (sched : List Bool) (cfg : RaceConfig) (hinv : raceInv u na nb pw0 cfg) :
    raceInv u na nb pw0 (raceRun u na nb pwa pwb cfg sched) := by
  induction sched generalizing cfg with
  | nil => exact hinv
  | cons side rest ih =>
    rw [raceRun, List.foldl_cons]
    apply ih
    obtain ⟨st, ta, tb⟩ := cfg
    cases side
    · exact raceInv_stepB u na nb pw0 pwb hna hnb hnanb hpb st ta tb hinv
    · exact raceInv_stepA u na nb pw0 pwa hna hnb hnanb hpa st ta tb hinv

theorem raceInv_init (u na nb : String) (pw0 c0 : Option String)
    (store0 : List (String × SessRec))
    (hc0ne : c0 ≠ some "") (hc0a : c0 ≠ some na) (hc0b : c0 ≠ some nb) :
    raceInv u na nb pw0 ⟨⟨[⟨u, pw0, c0⟩], store0⟩, initThread, initThread⟩ := by
  refine ⟨c0, rfl, hc0ne, ?_, ?_, ⟨?_, ?_, ?_, ?_, ?_, ?_, ?_⟩, ⟨?_, ?_, ?_, ?_, ?_, ?_, ?_⟩⟩
  · intro x hx h1 h2
    refine ⟨?_, Or.inl rfl, Or.inl rfl⟩
    intro he
    rw [he] at hx
    exact hc0ne hx
  · intro h _
    simp [pastClaim, initThread] at h
  · intro hx
    exact absurd hx hc0a
  · intro hx
    simp [initThread] at hx
  · intro hx
    simp [initThread] at hx
  · rintro ⟨h, _⟩
    simp [initThread] at h
  · intro h
    simp [initThread] at h
  · intro h
    simp [initThread] at h
  · intro h
    simp [initThread] at h
  · intro hx
    exact absurd hx hc0b
  · intro hx
    simp [initThread] at hx
  · intro hx
    simp [initThread] at hx
  · rintro ⟨h, _⟩
    simp [initThread] at h
  · intro h
    simp [initThread] at h
  · intro h
    simp [initThread] at h
  · intro h
    simp [initThread] at h

theorem getUser_from_users {s : ServerState} {u : String} {pw0 c : Option String}
    (h : s.users = [⟨u, pw0, c⟩]) : getUser s u = some ⟨u, pw0, c⟩ := by
  unfold getUser
  rw [h, List.find?_cons_of_pos _ (by simp)]

theorem getUser_singleton_inv {s : ServerState} {u name : String} {pw0 c : Option String}
    {r : UserRow} (husers : s.users = [⟨u, pw0, c⟩]) (h : getUser s name = some r) :
    r = ⟨u, pw0, c⟩ := by
  unfold getUser at h
  rw [husers] at h
  have := List.mem_of_find?_eq_some h
  simpa using this

theorem race_not_both {u na nb : String} {pw0 c : Option String} {cfg : RaceConfig}
    (hc : RaceInvC u na nb pw0 c cfg) (hnanb : na ≠ nb) :
    ¬(guardOK cfg.st na ∧ guardOK cfg.st nb) := by
  rintro ⟨ha, hb⟩
  obtain ⟨un1, row1, _, _, hg1, hs1⟩ := guard_allowed_inversion _ _ ha
  obtain ⟨un2, row2, _, _, hg2, hs2⟩ := guard_allowed_inversion _ _ hb
  have h1 := getUser_singleton_inv hc.husers hg1
  have h2 := getUser_singleton_inv hc.husers hg2
  subst h1
  subst h2
  rw [show (freshRequest cfg.st na).sessionID = na from rfl] at hs1
  rw [show (freshRequest cfg.st nb).sessionID = nb from rfl] at hs2
  rw [hs1] at hs2
  exact hnanb (Option.some.inj hs2)

theorem race_final (u na nb : String) (pw0 : Option String)
    (hu : u ≠ "") (hna : na ≠ "") (hnb : nb ≠ "") (hnanb : na ≠ nb)
    (cfg : RaceConfig) (hinv : raceInv u na nb pw0 cfg)
    (hda : cfg.ta.pc = .doneStep) (hdb : cfg.tb.pc = .doneStep) :
    (guardOK cfg.st na ∧ ¬guardOK cfg.st nb ∧
      (cfg.tb.result = some .sesionActiva ∨
        (cfg.tb.result = some .inicio ∧ ¬guardOK cfg.st nb))) ∨
    (guardOK cfg.st nb ∧ ¬guardOK cfg.st na ∧
      (cfg.ta.result = some .sesionActiva ∨
        (cfg.ta.result = some .inicio ∧ ¬guardOK cfg.st na))) := by
  obtain ⟨c, hc⟩ := hinv
  obtain ⟨husers, hcne, hforeign, hpast, hsA, hsB⟩ := hc
  have hcnn : c ≠ none := hpast (Or.inr hda) (Or.inr hdb)
  have hguard : ∀ n : String, n ≠ "" → c = some n → storeGet cfg.st.store n = some ⟨some u⟩ →
      guardOK cfg.st n := by
    intro n hn hcn hst
    unfold guardOK
    rw [show freshRequest cfg.st n = ⟨n, some u⟩ from by
      unfold freshRequest
      rw [hst]
      rfl]
    rw [guard_allowed cfg.st ⟨n, some u⟩ u ⟨u, pw0, c⟩ ⟨some u⟩ rfl hu
      (getUser_from_users husers) (by rw [hcn]) hn hst]
  have hnotguard : ∀ n m : String, c = some n → n ≠ m → ¬guardOK cfg.st m := by
    intro n m hcn hnm hg
    obtain ⟨un1, row1, _, _, hg1, hs1⟩ := guard_allowed_inversion _ _ hg
    have h1 := getUser_singleton_inv husers hg1
    subst h1
    rw [show (freshRequest cfg.st m).sessionID = m from rfl] at hs1
    rw [hcn] at hs1
    exact hnm (Option.some.inj hs1)
  cases hcx : c with
  | none => exact absurd hcx hcnn
  | some x =>
    by_cases hxa : x = na
    · rw [hxa] at hcx
      left
      obtain ⟨_, hresA⟩ := hsA.claimOwn hcx
      have hstore : storeGet cfg.st.store na = some ⟨some u⟩ := by
        rcases hsA.doneStore ⟨hda, hresA⟩ with h | ⟨hr, _, _⟩
        · exact h
        · exact absurd hcx (hsA.readClear hr (Or.inr (Or.inr hdb)))
      refine ⟨hguard na hna hcx hstore, hnotguard na nb hcx hnanb, ?_⟩
      rcases hsB.doneRes hdb with h | h
      · exact Or.inl h
      · exact Or.inr ⟨h, hnotguard na nb hcx hnanb⟩
    · by_cases hxb : x = nb
      · rw [hxb] at hcx
        right
        obtain ⟨_, hresB⟩ := hsB.claimOwn hcx
        have hstore : storeGet cfg.st.store nb = some ⟨some u⟩ := by
          rcases hsB.doneStore ⟨hdb, hresB⟩ with h | ⟨hr, _, _⟩
          · exact h
          · exact absurd hcx (hsB.readClear hr (Or.inr (Or.inr hda)))
        refine ⟨hguard nb hnb hcx hstore, hnotguard nb na hcx (fun h => hnanb h.symm), ?_⟩
        rcases hsA.doneRes hda with h | h
        · exact Or.inl h
        · exact Or.inr ⟨h, hnotguard nb na hcx (fun h => hnanb h.symm)⟩
      · rcases (hforeign x hcx hxa hxb).2.1 with h | ⟨h, _⟩
        · rw [hda] at h
          cases h
        · rw [hda] at h
          rcases h with h | h <;> cases h

/-- C2: two concurrent logins for the same account with passing credentials,
interleaved by an arbitrary schedule of their atomic blocks: at no point do
both freshly issued identifiers simultaneously satisfy guard-check, and once
both requests have completed, exactly one of them holds a session that passes
guard-check — the other either failed with SessionClaimLost (the
`sesion_activa` redirect) or finished successfully but was evicted, its
identifier no longer passing guard-check.  The single conditional claim
update `conditionalClaim` is the only write that installs a claim. -/
theorem claim2_concurrent_logins (u na nb : String) (pw0 pwa pwb c0 : Option String)
    (store0 : List (String × SessRec)) (sched : List Bool)
    (hu : u ≠ "") (hna : na ≠ "") (hnb : nb ≠ "") (hnanb : na ≠ nb)
    (hpa : truthyStr pw0 = true → truthyStr pwa = true → pw0 = pwa)
    (hpb : truthyStr pw0 = true → truthyStr pwb = true → pw0 = pwb)
    (hc0ne : c0 ≠ some "") (hc0a : c0 ≠ some na) (hc0b : c0 ≠ some nb) :
    let cfg := raceRun u na nb pwa pwb
      ⟨⟨[⟨u, pw0, c0⟩], store0⟩, initThread, initThread⟩ sched
    ¬(guardOK cfg.st na ∧ guardOK cfg.st nb) ∧
    (cfg.ta.pc = .doneStep → cfg.tb.pc = .doneStep →
      (guardOK cfg.st na ∧ ¬guardOK cfg.st nb ∧
        (cfg.tb.result = some .sesionActiva ∨
          (cfg.tb.result = some .inicio ∧ ¬guardOK cfg.st nb))) ∨
      (guardOK cfg.st nb ∧ ¬guardOK cfg.st na ∧
        (cfg.ta.result = some .sesionActiva ∨
          (cfg.ta.result = some .inicio ∧ ¬guardOK cfg.st na)))) := by
  intro cfg
  have hinv := raceInv_run u na nb pw0 pwa pwb hna hnb hnanb hpa hpb sched _
    (raceInv_init u na nb pw0 c0 store0 hc0ne hc0a hc0b)
  obtain ⟨c, hc⟩ := hinv
  exact ⟨race_not_both hc hnanb,
    fun hda hdb => race_final u na nb pw0 hu hna hnb hnanb cfg ⟨c, hc⟩ hda hdb⟩

/-- C2 witness: a concrete race in which request A completes first and request
B then evicts it; the conclusions of the race theorem hold at that schedule. -/
theorem claim2_concurrent_logins_witness :
    let cfg := raceRun "u" "A" "B" (some "p") (some "p")
      ⟨⟨[⟨"u", some "p", none⟩], []⟩, initThread, initThread⟩
      [true, true, true, false, false, false, false, false]
    ¬(guardOK cfg.st "A" ∧ guardOK cfg.st "B") ∧
    (cfg.ta.pc = .doneStep → cfg.tb.pc = .doneStep →
      (guardOK cfg.st "A" ∧ ¬guardOK cfg.st "B" ∧
        (cfg.tb.result = some .sesionActiva ∨
          (cfg.tb.result = some .inicio ∧ ¬guardOK cfg.st "B"))) ∨
      (guardOK cfg.st "B" ∧ ¬guardOK cfg.st "A" ∧
        (cfg.ta.result = some .sesionActiva ∨
          (cfg.ta.result = some .inicio ∧ ¬guardOK cfg.st "A")))) :=
  claim2_concurrent_logins "u" "A" "B" (some "p") (some "p") (some "p") none []
    [true, true, true, false, false, false, false, false]
    (by decide) (by decide) (by decide) (by decide)
    (fun _ _ => rfl) (fun _ _ => rfl) (by decide) (by decide) (by decide)

end Porfin
